import Mathlib

/-!
Verification development for the contact-search query compiler
(`temba/contacts/search/parser.py`): AST model, optimizer passes,
and the three backend compilers (relational, search-index, in-memory),
shallowly embedded in Lean with executable definitions.
-/

set_option maxHeartbeats 1000000

/-- Boolean combination operator (`BoolCombination.AND` / `BoolCombination.OR`). -/
inductive BoolOp where
  | and
  | or
deriving DecidableEq, Repr

/-- Contact field value types (`Value.TYPE_*`). -/
inductive ValueType where
  | text
  | number
  | datetime
  | state
  | district
  | ward
deriving DecidableEq, Repr

/-- Organization context: anonymization flag, timezone (as a fixed UTC offset in
seconds; the code reads `org.timezone`) and day-first date convention. -/
structure Org where
  isAnon : Bool
  utcOffset : Int
  dayfirst : Bool
deriving DecidableEq, Repr

/-- A contact field definition as returned by the schema registry:
numeric id, uuid, value type and owning organization. -/
structure ContactField where
  id : Nat
  uuid : String
  valueType : ValueType
  org : Org
deriving DecidableEq, Repr

/-- An entry of the property map built by `ContactQuery.get_prop_map`:
a tagged pair `(kind, reference)` with kind `PROP_FIELD` / `PROP_ATTRIBUTE` /
`PROP_SCHEME`. -/
inductive PropEntry where
  | field (f : ContactField)
  | attr (name : String)
  | scheme (name : String)
deriving DecidableEq, Repr

/-- Property map from property names to resolved entries. -/
abbrev PropMap := List (String × PropEntry)

/-- A condition value: the parser only produces strings; the optimizer's
membership rewrite builds a list value (`Condition(self.prop, '=', [...])`). -/
inductive QueryValue where
  | str (s : String)
  | list (vs : List String)
deriving DecidableEq, Repr

/-- The AST: `Condition`, `IsSetCondition` (a `Condition` subclass with
value `""`), `BoolCombination` and `SinglePropCombination` (a
`BoolCombination` subclass). -/
inductive QueryNode where
  | cond (prop comparator : String) (value : QueryValue)
  | isSet (prop comparator : String)
  | bool (op : BoolOp) (children : List QueryNode)
  | singleProp (prop : String) (op : BoolOp) (children : List QueryNode)

namespace QueryNode

/-- Operator of a node when it is a combination (`BoolCombination` or its
`SinglePropCombination` subclass), else none. -/
def nodeOp : QueryNode → Option BoolOp
  | .bool op _ => some op
  | .singleProp _ op _ => some op
  | _ => none

/-- Children of a combination node (a `Condition` has none). -/
def childrenOf : QueryNode → List QueryNode
  | .bool _ cs => cs
  | .singleProp _ _ cs => cs
  | _ => []

/-- Python `isinstance(child, Condition)`: true for `Condition` and its
`IsSetCondition` subclass. -/
def isCondition : QueryNode → Bool
  | .cond _ _ _ => true
  | .isSet _ _ => true
  | _ => false

/-- The grouping key used by `split_by_prop`:
`child.prop if isinstance(child, Condition) else None`. -/
def propKey : QueryNode → Option String
  | .cond p _ _ => some p
  | .isSet p _ => some p
  | _ => none

/-- One step of `BoolCombination.simplify`'s flattening loop: a `Condition`
child is kept, a combination child contributes its children. -/
def expandChild : QueryNode → List QueryNode
  | .cond p c v => [.cond p c v]
  | .isSet p c => [.isSet p c]
  | .bool _ gs => gs
  | .singleProp _ _ gs => gs

mutual

/-- `QueryNode.simplify` / `BoolCombination.simplify`: bottom-up associativity
flattening.  The children are simplified first; if every child is a
`Condition` or a combination with the same operator, the combination children
are absorbed, otherwise the node is returned with its (simplified) children
unchanged (`return self` fires at the first mismatching child, after
`self.children` has already been replaced by the simplified children). -/
def simplify : QueryNode → QueryNode
  | .cond p c v => .cond p c v
  | .isSet p c => .isSet p c
  | .bool op cs =>
      let cs' := simplifyList cs
      if cs'.all (fun c => match c.nodeOp with | none => true | some o => o == op) then
        .bool op (cs'.flatMap expandChild)
      else
        .bool op cs'
  | .singleProp p op cs =>
      let cs' := simplifyList cs
      if cs'.all (fun c => match c.nodeOp with | none => true | some o => o == op) then
        .bool op (cs'.flatMap expandChild)
      else
        .singleProp p op cs'

/-- Pointwise simplification of a children list
(`self.children = [c.simplify() for c in self.children]`). -/
def simplifyList : List QueryNode → List QueryNode
  | [] => []
  | c :: cs => simplify c :: simplifyList cs

end

/-- One insertion into the ordered grouping dict of `split_by_prop`
(`children_by_prop[prop].append(child)`, creating the key on first use). -/
def insertByProp (acc : List (Option String × List QueryNode)) (k : Option String)
    (c : QueryNode) : List (Option String × List QueryNode) :=
  match acc with
  | [] => [(k, [c])]
  | (k', g) :: rest =>
      if k' == k then (k', g ++ [c]) :: rest else (k', g) :: insertByProp rest k c

/-- The `OrderedDict` grouping loop of `split_by_prop`, as an ordered
association list. -/
def childrenByProp (cs : List QueryNode) : List (Option String × List QueryNode) :=
  cs.foldl (fun acc c => insertByProp acc c.propKey c) []

/-- The per-group rewrite of `split_by_prop`: a group of more than one child
with an actual property becomes a `SinglePropCombination`. -/
def wrapGroup (op : BoolOp) : Option String × List QueryNode → List QueryNode
  | (some p, g) => if g.length > 1 then [.singleProp p op g] else g
  | (none, g) => g

mutual

/-- `QueryNode.split_by_prop` / `BoolCombination.split_by_prop`: bottom-up
regrouping of same-property children, collapsing to the single remaining
child when only one is left. -/
def splitByProp : QueryNode → QueryNode
  | .cond p c v => .cond p c v
  | .isSet p c => .isSet p c
  | .bool op cs =>
      let cs' := splitByPropList cs
      let newChildren := (childrenByProp cs').flatMap (wrapGroup op)
      match newChildren with
      | [c] => c
      | cs'' => .bool op cs''
  | .singleProp _ op cs =>
      let cs' := splitByPropList cs
      let newChildren := (childrenByProp cs').flatMap (wrapGroup op)
      match newChildren with
      | [c] => c
      | cs'' => .bool op cs''

/-- Pointwise `split_by_prop` over a children list. -/
def splitByPropList : List QueryNode → List QueryNode
  | [] => []
  | c :: cs => splitByProp c :: splitByPropList cs

end

end QueryNode

/-- Error outcomes of the compilers and the evaluator.  `search` is the
recoverable `SearchException`; the others model Python faults:
`ValueError` fallthroughs, `AttributeError` (e.g. `.upper()` on a non-string),
dict `KeyError`, and `TypeError` (e.g. `reduce()` of an empty sequence). -/
inductive EvalErr where
  | search (msg : String)
  | value (msg : String)
  | attrError
  | keyError
  | typeError
deriving DecidableEq, Repr

namespace Str

/-- Python `str.upper()` (character-wise, over the underlying list). -/
def upper (s : String) : String := ⟨s.data.map Char.toUpper⟩

/-- Python `str.lower()`. -/
def lower (s : String) : String := ⟨s.data.map Char.toLower⟩

/-- Python slicing `s[:n]`. -/
def take (s : String) (n : Nat) : String := ⟨s.data.take n⟩

/-- Python `needle in hay` (substring containment). -/
def isInfix (needle hay : String) : Bool :=
  hay.data.tails.any (fun t => needle.data.isPrefixOf t)

/-- Worker for `splitOn` with fuel (the input length), so that the
definition is structural and kernel-reducible. -/
def splitOnGo (sep : List Char) : Nat → List Char → List Char → List (List Char)
  | _, [], acc => [acc.reverse]
  | 0, l, acc => [acc.reverse ++ l]
  | fuel + 1, c :: rest, acc =>
      if sep.isPrefixOf (c :: rest) then
        acc.reverse :: splitOnGo sep fuel ((c :: rest).drop sep.length) []
      else
        splitOnGo sep fuel rest (c :: acc)

/-- Python `s.split(sep)` for a non-empty separator. -/
def splitOn (s sep : String) : List String :=
  (splitOnGo sep.data s.data.length s.data []).map String.mk

/-- Digits of a decimal numeral to a natural number. -/
def digitsToNat (l : List Char) : Nat :=
  l.foldl (fun n c => n * 10 + (c.toNat - 48)) 0

/-- Python `int(s)` on an unsigned decimal numeral (`none` when not one). -/
def toNatQ (s : String) : Option Nat :=
  if s.data ≠ [] ∧ s.data.all Char.isDigit then some (digitsToNat s.data) else none

/-- Python `s.startswith(pre)`. -/
def startsWith (s pre : String) : Bool := pre.data.isPrefixOf s.data

end Str

/-- Day number (days since 1970-01-01) of a civil date, with the usual
proleptic-Gregorian era computation (divisions truncate toward zero as in
the reference algorithm; all claim dates are positive). -/
def daysFromCivil (y m d : Int) : Int :=
  let y' := if m ≤ 2 then y - 1 else y
  let era := (if 0 ≤ y' then y' else y' - 399) / 400
  let yoe := y' - era * 400
  let mp := (m + 9) % 12
  let doy := (153 * mp + 2) / 5 + d - 1
  let doe := yoe * 365 + yoe / 4 - yoe / 100 + doy
  era * 146097 + doe - 719468

/-- Modelled from the spec: `temba.utils.dates.str_to_datetime` (the module is
not under `src/`) with `fill_time=False` parses a condition literal "in org
timezone/day-first convention as a *date*".  We model ISO `YYYY-MM-DD`
literals (which are unambiguous under either day-first convention), returning
the civil day number, and `none` for unparseable input. -/
def str_to_date (s : String) : Option Int :=
  match Str.splitOn s "-" with
  | [ys, ms, ds] =>
      match Str.toNatQ ys, Str.toNatQ ms, Str.toNatQ ds with
      | some y, some m, some d =>
          if 1 ≤ m ∧ m ≤ 12 ∧ 1 ≤ d ∧ d ≤ 31 then some (daysFromCivil y m d) else none
      | _, _, _ => none
  | _ => none

/-- Modelled from the spec: `temba.utils.dates.date_to_utc_range` (not under
`src/`) expands a local date "to the UTC `[start, end)` instant range for
that local day".  Instants are seconds since the epoch; the org timezone is a
fixed UTC offset. -/
def date_to_utc_range (day : Int) (org : Org) : Int × Int :=
  (day * 86400 - org.utcOffset, (day + 1) * 86400 - org.utcOffset)

/-- UTC instant (seconds since the epoch) of a civil date-time, used to state
concrete timestamps such as `2020-01-16T00:00:00Z`. -/
def utcInstant (y m d h mi s : Int) : Int :=
  daysFromCivil y m d * 86400 + h * 3600 + mi * 60 + s

/-- A decimal number `mantissa / 10 ^ scale`, the representation behind
Python `Decimal` values (kept unnormalized; all comparisons are numeric). -/
structure Dec where
  mantissa : Int
  scale : Nat
deriving DecidableEq, Repr

namespace Dec

/-- Numeric equality of decimals. -/
def eqv (a b : Dec) : Bool :=
  a.mantissa * (10 : Int) ^ b.scale == b.mantissa * (10 : Int) ^ a.scale

/-- Numeric strict order of decimals. -/
def ltv (a b : Dec) : Bool :=
  decide (a.mantissa * (10 : Int) ^ b.scale < b.mantissa * (10 : Int) ^ a.scale)

/-- Numeric non-strict order of decimals. -/
def lev (a b : Dec) : Bool :=
  decide (a.mantissa * (10 : Int) ^ b.scale ≤ b.mantissa * (10 : Int) ^ a.scale)

end Dec

/-- Modelled from the spec: Python `Decimal(...)` parsing of a numeric
literal ("value parsed as decimal; invalid input fails").  Plain decimal
notation with optional sign and fraction. -/
def parseDecimal (s : String) : Option Dec :=
  let neg := Str.startsWith s "-"
  let body : String :=
    if Str.startsWith s "-" || Str.startsWith s "+" then ⟨s.data.drop 1⟩ else s
  let mk : Nat → Nat → Dec := fun num sc =>
    { mantissa := if neg then -(num : Int) else (num : Int), scale := sc }
  match Str.splitOn body "." with
  | [i] => (Str.toNatQ i).map (fun n => mk n 0)
  | [i, fr] => (Str.toNatQ (i ++ fr)).map (fun n => mk n fr.data.length)
  | _ => none

/-- Rendering of a query value for error messages. -/
def QueryValue.render : QueryValue → String
  | .str s => s
  | .list vs => String.intercalate ", " vs

/-- `Condition._parse_number`: `Decimal(val)` with every failure turned into
`SearchException` (a list value fails inside `Decimal`, hence also becomes a
`SearchException`). -/
def parse_number (v : QueryValue) : Except EvalErr Dec :=
  match v with
  | .str s =>
      match parseDecimal s with
      | some q => .ok q
      | none => .error (.search (s ++ " is not a valid number"))
  | .list _ => .error (.search (v.render ++ " is not a valid number"))

/-- `self.value.upper()`: a list value has no `.upper`, raising
`AttributeError`. -/
def valueUpper : QueryValue → Except EvalErr String
  | .str s => .ok (Str.upper s)
  | .list _ => .error .attrError

/-- `self.value.lower()`: a list value has no `.lower`, raising
`AttributeError`. -/
def valueLower : QueryValue → Except EvalErr String
  | .str s => .ok (Str.lower s)
  | .list _ => .error .attrError

/-- Python substring test `needle in hay`. -/
def strIn (needle hay : String) : Bool :=
  Str.isInfix needle hay

/-- The query date of a datetime condition:
`str_to_datetime(self.value, field.org.timezone, field.org.get_dayfirst(),
fill_time=False)`, failing with `SearchException` when unparseable (a list
value fails with a fault inside the date regex). -/
def parseQueryDate (v : QueryValue) (_org : Org) : Except EvalErr Int :=
  match v with
  | .list _ => .error .typeError
  | .str s =>
      match str_to_date s with
      | none => .error (.search ("Unable to parse the date " ++ s))
      | some d => .ok d

/-- A denormalized contact field value as stored in `contact_json['fields']`:
the keys `text` / `number` (alias `decimal`) / `datetime` / `state` /
`district` / `ward` that the evaluator reads.  Numbers and datetimes are
modelled post-parse: `_parse_number` and `str_to_datetime` on a stored value
are the identity on the parsed representation. -/
structure FieldValue where
  text : Option String
  number : Option Dec
  datetime : Option Int
  state : Option String
  district : Option String
  ward : Option String
deriving DecidableEq, Repr

/-- A URN record of `contact_json['urns']`: `{scheme, path}`. -/
structure UrnJson where
  scheme : String
  path : String
deriving DecidableEq, Repr

/-- The denormalized contact record consumed by `evaluate`. -/
structure ContactJson where
  fields : List (String × FieldValue)
  urns : List UrnJson
deriving DecidableEq, Repr

/-- `IsSetCondition.IS_SET_LOOKUPS`. -/
def IS_SET_LOOKUPS : List String := ["!="]

/-- `IsSetCondition.IS_NOT_SET_LOOKUPS`. -/
def IS_NOT_SET_LOOKUPS : List String := ["is", "="]

/-- The shared `is_set` determination of `IsSetCondition.as_query` /
`evaluate` / `as_elasticsearch`: `self.comparator.lower()` against the two
lookup lists, otherwise `SearchException`. -/
def isSetPolarity (comparator : String) : Except EvalErr Bool :=
  if IS_SET_LOOKUPS.contains (Str.lower comparator) then .ok true
  else if IS_NOT_SET_LOOKUPS.contains (Str.lower comparator) then .ok false
  else .error (.search "Invalid operator for empty string comparison")

/-- `value.upper().split(' > ')[-1]`: the leaf segment of a hierarchical
location path, upper-cased. -/
def locationLeaf (s : String) : String :=
  (Str.splitOn (Str.upper s) " > ").getLastD ""

/-- The URN loop of `Condition.evaluate` for a scheme property: scan the
contact URNs of that scheme, comparing upper-cased path and value with
`=` (equality) or `~` (substring); any other comparator faults with
`ValueError` when a URN of the scheme is reached. -/
def urnLoop (s comparator : String) (value : QueryValue) :
    List UrnJson → Except EvalErr Bool
  | [] => .ok false
  | u :: rest =>
      if u.scheme == s then
        match valueUpper value with
        | .error e => .error e
        | .ok q =>
            let contactValue := Str.upper u.path
            if comparator == "=" then
              if contactValue == q then .ok true else urnLoop s comparator value rest
            else if comparator == "~" then
              if strIn q contactValue then .ok true else urnLoop s comparator value rest
            else .error (.value ("Unknown urn scheme comparator: " ++ comparator))
      else urnLoop s comparator value rest

/-- `Condition.evaluate`: dispatch on the resolved property kind.  Note the
final branch: an attribute property (`PROP_ATTRIBUTE`, tag `A`) reaches the
`else` and raises `ValueError("Unrecognized contact field type 'A'")`. -/
def condEvaluate (pm : PropMap) (cj : ContactJson) (prop comparator : String)
    (value : QueryValue) : Except EvalErr Bool :=
  match List.lookup prop pm with
  | none => .error .keyError
  | some (.field f) =>
      match List.lookup f.uuid cj.fields with
      | none => .ok false
      | some fv =>
          match f.valueType with
          | .text =>
              match valueUpper value with
              | .error e => .error e
              | .ok q =>
                  match fv.text with
                  | none => .error .attrError
                  | some t =>
                      if comparator == "=" then .ok (Str.upper t == q)
                      else .error (.value ("Unknown text comparator: " ++ comparator))
          | .number =>
              match parse_number value with
              | .error e => .error e
              | .ok q =>
                  match fv.number with
                  | none => .ok false
                  | some n =>
                      if comparator == "=" then .ok (n.eqv q)
                      else if comparator == ">" then .ok (q.ltv n)
                      else if comparator == ">=" then .ok (q.lev n)
                      else if comparator == "<" then .ok (n.ltv q)
                      else if comparator == "<=" then .ok (n.lev q)
                      else .error (.value ("Unknown number comparator: " ++ comparator))
          | .datetime =>
              match parseQueryDate value f.org with
              | .error e => .error e
              | .ok d =>
                  match fv.datetime with
                  | none => .ok false
                  | some t =>
                      let r := date_to_utc_range d f.org
                      if comparator == "=" then .ok (decide (r.1 ≤ t) && decide (t < r.2))
                      else if comparator == ">" then .ok (decide (r.2 ≤ t))
                      else if comparator == ">=" then .ok (decide (r.1 ≤ t))
                      else if comparator == "<" then .ok (decide (t < r.1))
                      else if comparator == "<=" then .ok (decide (t < r.2))
                      else .error (.value ("Unknown datetime comparator: " ++ comparator))
          | vt =>
              match valueUpper value with
              | .error e => .error e
              | .ok q =>
                  let contactValue :=
                    match vt with
                    | .ward => locationLeaf (fv.ward.getD "")
                    | .district => locationLeaf (fv.district.getD "")
                    | _ => locationLeaf (fv.state.getD "")
                  if comparator == "=" then .ok (contactValue == q)
                  else .error (.search ("Unsupported comparator " ++ comparator ++
                    " for location field"))
  | some (.scheme s) => urnLoop s comparator value cj.urns
  | some (.attr _) => .error (.value "Unrecognized contact field type A")

/-- `IsSetCondition.evaluate`: comparator polarity first, then presence of the
relevant component; an attribute property again raises `ValueError`. -/
def isSetEvaluate (pm : PropMap) (cj : ContactJson) (prop comparator : String) :
    Except EvalErr Bool :=
  match List.lookup prop pm with
  | none => .error .keyError
  | some entry =>
      match isSetPolarity comparator with
      | .error e => .error e
      | .ok isSet =>
          match entry with
          | .field f =>
              match List.lookup f.uuid cj.fields with
              | none => .ok (!isSet)
              | some fv =>
                  let present :=
                    match f.valueType with
                    | .text => fv.text.isSome
                    | .number => fv.number.isSome
                    | .datetime => fv.datetime.isSome
                    | .ward => fv.ward.isSome
                    | .district => fv.district.isSome
                    | .state => fv.state.isSome
                  .ok (if isSet then present else !present)
          | .scheme s =>
              let urnExists := cj.urns.any (fun u => u.scheme == s)
              .ok (if urnExists then isSet else !isSet)
          | .attr _ => .error (.value "Unrecognized contact field type A")

/-- `operator.and_` / `operator.or_` on booleans (eager, not short-circuit). -/
def boolApply (op : BoolOp) (x y : Bool) : Bool :=
  match op with
  | .and => x && y
  | .or => x || y

/-- `reduce(self.op, bools)`: left fold over the first element;
`reduce()` of an empty sequence raises `TypeError`. -/
def reduceBools (op : BoolOp) : List Bool → Except EvalErr Bool
  | [] => .error .typeError
  | b :: bs => .ok (bs.foldl (boolApply op) b)

mutual

/-- `QueryNode.evaluate` over the AST: conditions evaluate directly;
combinations evaluate all children (in order, faulting at the first error as
the list comprehension would) and reduce with the node operator.
`SinglePropCombination` inherits `BoolCombination.evaluate`. -/
def evaluate (pm : PropMap) (cj : ContactJson) : QueryNode → Except EvalErr Bool
  | .cond p c v => condEvaluate pm cj p c v
  | .isSet p c => isSetEvaluate pm cj p c
  | .bool op cs =>
      match evaluateList pm cj cs with
      | .error e => .error e
      | .ok bs => reduceBools op bs
  | .singleProp _ op cs =>
      match evaluateList pm cj cs with
      | .error e => .error e
      | .ok bs => reduceBools op bs

/-- The child evaluation list `[child.evaluate(contact_json, prop_map) for
child in self.children]`. -/
def evaluateList (pm : PropMap) (cj : ContactJson) :
    List QueryNode → Except EvalErr (List Bool)
  | [] => .ok []
  | c :: cs =>
      match evaluate pm cj c with
      | .error e => .error e
      | .ok b =>
          match evaluateList pm cj cs with
          | .error e => .error e
          | .ok bs => .ok (b :: bs)

end

/-- `Condition.ATTR_OR_URN_LOOKUPS`. -/
def ATTR_OR_URN_LOOKUPS : List (String × String) := [("=", "iexact"), ("~", "icontains")]

/-- `Condition.TEXT_LOOKUPS`. -/
def TEXT_LOOKUPS : List (String × String) := [("=", "iexact")]

/-- `Condition.NUMBER_LOOKUPS`. -/
def NUMBER_LOOKUPS : List (String × String) :=
  [("=", "exact"), (">", "gt"), (">=", "gte"), ("<", "lt"), ("<=", "lte")]

/-- `Condition.DATETIME_LOOKUPS`. -/
def DATETIME_LOOKUPS : List (String × String) :=
  [("=", "<equal>"), (">", "gt"), (">=", "gte"), ("<", "lt"), ("<=", "lte")]

/-- `Condition.LOCATION_LOOKUPS`. -/
def LOCATION_LOOKUPS : List (String × String) := [("=", "iexact")]

/-- `Condition.COMPARATOR_ALIASES`. -/
def COMPARATOR_ALIASES : List (String × String) := [("is", "="), ("has", "~")]

/-- The comparator normalization of `Condition.__init__`
(`is → =`, `has → ~`). -/
def aliasComparator (comparator : String) : String :=
  match List.lookup comparator COMPARATOR_ALIASES with
  | some c => c
  | none => comparator

/-- `STRING_VALUE_COMPARISON_LIMIT`: the text equality index only covers the
first 32 characters. -/
def STRING_VALUE_COMPARISON_LIMIT : Nat := 32

/-- `BOUNDARY_LEVELS_BY_VALUE_TYPE`: the administrative-boundary hierarchy
level for each location value type (`AdminBoundary.LEVEL_STATE/DISTRICT/WARD`
live outside `src/`; the spec pins only that matching is "restricted to the
matching hierarchy level", so the exact numerals are representative). -/
def BOUNDARY_LEVELS_BY_VALUE_TYPE : ValueType → Nat
  | .state => 1
  | .district => 2
  | .ward => 3
  | _ => 0

/-- The text index key `'%d|%s' % (field.id, val[:32].upper())` of
`_build_text_field_params`. -/
def index_key (f : ContactField) (val : String) : String :=
  toString f.id ++ "|" ++ Str.upper (Str.take val STRING_VALUE_COMPARISON_LIMIT)

/-- Filter parameters over the `Value` table, the outcome of
`build_value_query_params`: each constructor is one shape of params dict. -/
inductive ValueParams where
  | fieldAndStringValue (key : String)
  | fieldAndStringValueIn (keys : List String)
  | decimalValue (fieldId : Nat) (lookup : String) (n : Dec)
  | decimalValueIn (fieldId : Nat) (ns : List Dec)
  | datetimeRange (fieldId : Nat) (gte lt : Option Int)
  | locationValueIn (fieldId : Nat) (level : Nat) (lookup : String) (names : List String)
deriving DecidableEq, Repr

/-- A Django `Q` over `Value`-table rows, as built by
`SinglePropCombination.as_query` (`reduce(self.op, value_queries)`). -/
inductive ValueQ where
  | params (p : ValueParams)
  | and (a b : ValueQ)
  | or (a b : ValueQ)
deriving DecidableEq, Repr

/-- A Django `Q` over contacts, covering exactly the shapes the compiler
emits: `Q(id=-1)`, attribute lookups, attribute exact/NULL tests (IsSet),
`Q(id__in=...)` over URN or `Value` sub-queries, and boolean connectives. -/
inductive Q where
  | idEq (i : Int)
  | attr (name lookup : String) (value : String)
  | attrExact (name : String) (value : Option String)
  | idInUrns (scheme lookup : String) (path : String)
  | idInUrnsAll (scheme : String)
  | idInValues (vq : ValueQ)
  | idInValuesNonNull (fieldId : Nat) (vt : ValueType)
  | and (a b : Q)
  | or (a b : Q)
  | not (a : Q)
deriving DecidableEq, Repr

/-- `Condition._build_text_field_params`. -/
def _build_text_field_params (f : ContactField) (comparator : String)
    (value : QueryValue) : Except EvalErr ValueParams :=
  match value with
  | .list vs => .ok (.fieldAndStringValueIn (vs.map (index_key f)))
  | .str v =>
      if (List.lookup comparator TEXT_LOOKUPS).isSome then
        .ok (.fieldAndStringValue (index_key f v))
      else
        .error (.search ("Cant query text fields with " ++ comparator))

/-- The list comprehension `[self._parse_number(v) for v in self.value]`. -/
def parse_number_list : List String → Except EvalErr (List Dec)
  | [] => .ok []
  | v :: vs =>
      match parse_number (.str v) with
      | .error e => .error e
      | .ok n =>
          match parse_number_list vs with
          | .error e => .error e
          | .ok ns => .ok (n :: ns)

/-- `Condition._build_number_field_params`. -/
def _build_number_field_params (f : ContactField) (comparator : String)
    (value : QueryValue) : Except EvalErr ValueParams :=
  match value with
  | .list vs =>
      match parse_number_list vs with
      | .error e => .error e
      | .ok ns => .ok (.decimalValueIn f.id ns)
  | .str v =>
      match List.lookup comparator NUMBER_LOOKUPS with
      | none => .error (.search ("Cant query number fields with " ++ comparator))
      | some lk =>
          match parse_number (.str v) with
          | .error e => .error e
          | .ok n => .ok (.decimalValue f.id lk n)

/-- `Condition._build_datetime_field_params`: parse the local date, expand to
the UTC instant range, then pick bounds by lookup. -/
def _build_datetime_field_params (f : ContactField) (comparator : String)
    (value : QueryValue) : Except EvalErr ValueParams :=
  match List.lookup comparator DATETIME_LOOKUPS with
  | none => .error (.search ("Cant query date fields with " ++ comparator))
  | some lk =>
      match parseQueryDate value f.org with
      | .error e => .error e
      | .ok d =>
          let r := date_to_utc_range d f.org
          if lk == "<equal>" then .ok (.datetimeRange f.id (some r.1) (some r.2))
          else if lk == "lt" then .ok (.datetimeRange f.id none (some r.1))
          else if lk == "lte" then .ok (.datetimeRange f.id none (some r.2))
          else if lk == "gt" then .ok (.datetimeRange f.id (some r.2) none)
          else .ok (.datetimeRange f.id (some r.1) none)

/-- `Condition._build_location_field_params`. -/
def _build_location_field_params (f : ContactField) (comparator : String)
    (value : QueryValue) : Except EvalErr ValueParams :=
  match List.lookup comparator LOCATION_LOOKUPS with
  | none => .error (.search ("Unsupported comparator " ++ comparator ++ " for location field"))
  | some lk =>
      let names := match value with | .list vs => vs | .str v => [v]
      .ok (.locationValueIn f.id (BOUNDARY_LEVELS_BY_VALUE_TYPE f.valueType) lk names)

/-- `Condition.build_value_query_params`: dispatch on the field value type. -/
def build_value_query_params (f : ContactField) (comparator : String)
    (value : QueryValue) : Except EvalErr ValueParams :=
  match f.valueType with
  | .text => _build_text_field_params f comparator value
  | .number => _build_number_field_params f comparator value
  | .datetime => _build_datetime_field_params f comparator value
  | _ => _build_location_field_params f comparator value

/-- `Condition._build_attr_query`: `Q(**{'attr__lookup': value})` (a list
value reaching the ORM string lookup is a fault). -/
def _build_attr_query (attr comparator : String) (value : QueryValue) :
    Except EvalErr Q :=
  match List.lookup comparator ATTR_OR_URN_LOOKUPS with
  | none => .error (.search ("Cant query contact properties with " ++ comparator))
  | some lk =>
      match value with
      | .str v => .ok (.attr attr lk v)
      | .list _ => .error .typeError

/-- `Condition._build_urn_query` (non-anonymized path):
`Q(id__in=ContactURN.filter(org, scheme, path__lookup=value))`. -/
def _build_urn_query (scheme comparator : String) (value : QueryValue) :
    Except EvalErr Q :=
  match List.lookup comparator ATTR_OR_URN_LOOKUPS with
  | none => .error (.search ("Cant query contact URNs with " ++ comparator))
  | some lk =>
      match value with
      | .str v => .ok (.idInUrns scheme lk v)
      | .list _ => .error .typeError

/-- `Condition.as_query`: field conditions become `Value` sub-queries, scheme
conditions become URN sub-queries — or the match-nothing `Q(id=-1)` for an
anonymized org — and the rest are attribute lookups. -/
def condAsQuery (org : Org) (pm : PropMap) (prop comparator : String)
    (value : QueryValue) : Except EvalErr Q :=
  match List.lookup prop pm with
  | none => .error .keyError
  | some (.field f) =>
      match build_value_query_params f comparator value with
      | .error e => .error e
      | .ok p => .ok (.idInValues (.params p))
  | some (.scheme s) =>
      if org.isAnon then .ok (.idEq (-1)) else _build_urn_query s comparator value
  | some (.attr a) => _build_attr_query a comparator value

/-- `IsSetCondition.as_query`. -/
def isSetAsQuery (org : Org) (pm : PropMap) (prop comparator : String) :
    Except EvalErr Q :=
  match List.lookup prop pm with
  | none => .error .keyError
  | some entry =>
      match isSetPolarity comparator with
      | .error e => .error e
      | .ok isSet =>
          match entry with
          | .field f =>
              let q := Q.idInValuesNonNull f.id f.valueType
              .ok (if isSet then q else .not q)
          | .scheme s =>
              if org.isAnon then .ok (.idEq (-1))
              else
                let q := Q.idInUrnsAll s
                .ok (if isSet then q else .not q)
          | .attr a =>
              let whereNotSet := Q.or (.attrExact a (some "")) (.attrExact a none)
              .ok (if isSet then .not whereNotSet else whereNotSet)

/-- `operator.and_` / `operator.or_` on `Q` objects. -/
def qApply (op : BoolOp) (a b : Q) : Q :=
  match op with
  | .and => .and a b
  | .or => .or a b

/-- `reduce(self.op, qs)` over contact `Q` objects. -/
def reduceQ (op : BoolOp) : List Q → Except EvalErr Q
  | [] => .error .typeError
  | q :: qs => .ok (qs.foldl (qApply op) q)

/-- `operator.and_` / `operator.or_` on `Value`-table `Q` objects. -/
def vqApply (op : BoolOp) (a b : ValueQ) : ValueQ :=
  match op with
  | .and => .and a b
  | .or => .or a b

/-- Comparator and value of a `Condition` node (`child.comparator`,
`child.value`; an `IsSetCondition` has value `""`); none for combination
nodes, whose attribute access would fault. -/
def condCompVal : QueryNode → Option (String × QueryValue)
  | .cond _ c v => some (c, v)
  | .isSet _ c => some (c, .str "")
  | _ => none

/-- `condCompVal` over the children of a `SinglePropCombination`. -/
def condCompValList : List QueryNode → Option (List (String × QueryValue))
  | [] => some []
  | c :: cs =>
      match condCompVal c with
      | none => none
      | some pr =>
          match condCompValList cs with
          | none => none
          | some prs => some (pr :: prs)

/-- The values list `[c.value for c in self.children]` of the membership
rewrite; none when a value is itself a list (never produced by the parser). -/
def strValues : List (String × QueryValue) → Option (List String)
  | [] => some []
  | pr :: prs =>
      match pr.2 with
      | .str s => (strValues prs).map (fun ss => s :: ss)
      | .list _ => none

/-- The loop `for child in self.children:
params = child.build_value_query_params(prop_obj)` of
`SinglePropCombination.as_query`. -/
def buildParamsList (f : ContactField) :
    List (String × QueryValue) → Except EvalErr (List ValueParams)
  | [] => .ok []
  | pr :: prs =>
      match build_value_query_params f pr.1 pr.2 with
      | .error e => .error e
      | .ok p =>
          match buildParamsList f prs with
          | .error e => .error e
          | .ok ps => .ok (p :: ps)

/-- Pointwise query-date parsing of a list of condition literals (used to
state the datetime non-folding property of `SinglePropCombination`). -/
def parseQueryDateList (o : Org) : List String → Except EvalErr (List Int)
  | [] => .ok []
  | v :: vs =>
      match parseQueryDate (.str v) o with
      | .error e => .error e
      | .ok d =>
          match parseQueryDateList o vs with
          | .error e => .error e
          | .ok ds => .ok (d :: ds)

/-- The `PROP_FIELD` branch of `SinglePropCombination.as_query`: an OR of
pure equality checks on a non-datetime field is rewritten to one membership
condition (`Condition(prop, '=', [values]).as_query(...)`); otherwise the
per-child params are combined into a single `Value` sub-query with
`reduce(self.op, ...)`. -/
def spcFieldAsQuery (org : Org) (pm : PropMap) (prop : String) (op : BoolOp)
    (cs : List QueryNode) (f : ContactField) : Except EvalErr Q :=
  match condCompValList cs with
  | none => .error .attrError
  | some pairs =>
      let allEquality := pairs.all (fun pr => pr.1 == "=")
      if op == .or && allEquality && f.valueType != .datetime then
        match strValues pairs with
        | none => .error .typeError
        | some vals => condAsQuery org pm prop "=" (.list vals)
      else
        match buildParamsList f pairs with
        | .error e => .error e
        | .ok ps =>
            match ps.map ValueQ.params with
            | [] => .error .typeError
            | v :: vs => .ok (.idInValues (vs.foldl (vqApply op) v))

mutual

/-- `QueryNode.as_query`: conditions compile directly; a `BoolCombination`
compiles all children and reduces with its operator; a
`SinglePropCombination` applies the membership optimization on field
properties and falls back to the inherited reduction otherwise. -/
def as_query (org : Org) (pm : PropMap) : QueryNode → Except EvalErr Q
  | .cond p c v => condAsQuery org pm p c v
  | .isSet p c => isSetAsQuery org pm p c
  | .bool op cs =>
      match as_query_list org pm cs with
      | .error e => .error e
      | .ok qs => reduceQ op qs
  | .singleProp p op cs =>
      match List.lookup p pm with
      | none => .error .keyError
      | some (.field f) => spcFieldAsQuery org pm p op cs f
      | some _ =>
          match as_query_list org pm cs with
          | .error e => .error e
          | .ok qs => reduceQ op qs

/-- The child compilation list of `BoolCombination.as_query`. -/
def as_query_list (org : Org) (pm : PropMap) :
    List QueryNode → Except EvalErr (List Q)
  | [] => .ok []
  | c :: cs =>
      match as_query org pm c with
      | .error e => .error e
      | .ok q =>
          match as_query_list org pm cs with
          | .error e => .error e
          | .ok qs => .ok (q :: qs)

end

/-- A contact row of the relational store. -/
structure Contact where
  id : Nat
  name : Option String
deriving DecidableEq, Repr

/-- A `ContactURN` row (scoped to the org of the query). -/
structure UrnRow where
  contactId : Nat
  scheme : String
  path : String
deriving DecidableEq, Repr

/-- A `Value` row: one (contact, field, value) triple with one typed column
populated. -/
structure ValueRow where
  contactId : Nat
  contactFieldId : Nat
  stringValue : Option String
  decimalValue : Option Dec
  datetimeValue : Option Int
  locationId : Option Nat
deriving DecidableEq, Repr

/-- An `AdminBoundary` row. -/
structure Boundary where
  id : Nat
  level : Nat
  name : String
deriving DecidableEq, Repr

/-- The relational store the compiled predicates run against. -/
structure DB where
  urns : List UrnRow
  values : List ValueRow
  boundaries : List Boundary
deriving DecidableEq, Repr

/-- Django string lookups: `iexact` is case-insensitive equality,
`icontains` case-insensitive containment. -/
def strLookup (lookup queryVal target : String) : Bool :=
  if lookup == "iexact" then Str.upper target == Str.upper queryVal
  else if lookup == "icontains" then strIn (Str.upper queryVal) (Str.upper target)
  else false

/-- The `field_and_string_value` annotation of
`Condition.get_base_value_query`:
`contact_field_id || '|' || UPPER(SUBSTR(string_value, 1, 32))`, which is
NULL (matching nothing) when the string value is NULL. -/
def rowIndexKey (r : ValueRow) : Option String :=
  r.stringValue.map
    (fun s => toString r.contactFieldId ++ "|" ++
      Str.upper (Str.take s STRING_VALUE_COMPARISON_LIMIT))

/-- Numeric column lookups (`exact/gt/gte/lt/lte`) against a row value. -/
def decLookupApply (lookup : String) (n row : Dec) : Bool :=
  if lookup == "exact" then row.eqv n
  else if lookup == "gt" then n.ltv row
  else if lookup == "gte" then n.lev row
  else if lookup == "lt" then row.ltv n
  else if lookup == "lte" then row.lev n
  else false

/-- Row-level semantics of `Value`-table filter params (SQL comparisons with
a NULL column are false). -/
def matchesValueParams (db : DB) (p : ValueParams) (r : ValueRow) : Bool :=
  match p with
  | .fieldAndStringValue key => rowIndexKey r == some key
  | .fieldAndStringValueIn keys =>
      match rowIndexKey r with
      | some k => keys.contains k
      | none => false
  | .decimalValue fid lk n =>
      r.contactFieldId == fid &&
        (match r.decimalValue with
         | some d => decLookupApply lk n d
         | none => false)
  | .decimalValueIn fid ns =>
      r.contactFieldId == fid &&
        (match r.decimalValue with
         | some d => ns.any (fun n => d.eqv n)
         | none => false)
  | .datetimeRange fid g l =>
      r.contactFieldId == fid &&
        (match g with
         | none => true
         | some a => match r.datetimeValue with
           | some t => decide (a ≤ t)
           | none => false) &&
        (match l with
         | none => true
         | some b => match r.datetimeValue with
           | some t => decide (t < b)
           | none => false)
  | .locationValueIn fid level lk names =>
      r.contactFieldId == fid &&
        (match r.locationId with
         | some lid =>
             db.boundaries.any (fun b =>
               b.id == lid && b.level == level && names.any (fun n => strLookup lk n b.name))
         | none => false)

/-- Row-level semantics of a `Value`-table `Q`. -/
def matchesValueQ (db : DB) : ValueQ → ValueRow → Bool
  | .params p, r => matchesValueParams db p r
  | .and a b, r => matchesValueQ db a r && matchesValueQ db b r
  | .or a b, r => matchesValueQ db a r || matchesValueQ db b r

/-- The per-type non-NULL column filters of `IsSetCondition.as_query`. -/
def valueRowNonNull (vt : ValueType) (r : ValueRow) : Bool :=
  match vt with
  | .text => r.stringValue.isSome
  | .number => r.decimalValue.isSome
  | .datetime => r.datetimeValue.isSome
  | _ => r.locationId.isSome

/-- The contact column named by an attribute property (`name` is nullable;
`id` always renders). -/
def attrValue (c : Contact) (name : String) : Option String :=
  if name == "name" then c.name
  else if name == "id" then some (toString c.id)
  else none

/-- Contact-level semantics of a compiled relational `Q`. -/
def matchesQ (db : DB) : Q → Contact → Bool
  | .idEq i, c => (c.id : Int) == i
  | .attr a lk v, c =>
      match attrValue c a with
      | some t => strLookup lk v t
      | none => false
  | .attrExact a v, c => attrValue c a == v
  | .idInUrns s lk v, c =>
      db.urns.any (fun u => u.contactId == c.id && u.scheme == s && strLookup lk v u.path)
  | .idInUrnsAll s, c =>
      db.urns.any (fun u => u.contactId == c.id && u.scheme == s)
  | .idInValues vq, c =>
      db.values.any (fun r => r.contactId == c.id && matchesValueQ db vq r)
  | .idInValuesNonNull fid vt, c =>
      db.values.any (fun r =>
        r.contactId == c.id && r.contactFieldId == fid && valueRowNonNull vt r)
  | .and a b, c => matchesQ db a c && matchesQ db b c
  | .or a b, c => matchesQ db a c || matchesQ db b c
  | .not a, c => !matchesQ db a c

/-- A scalar payload of the search-index query DSL: string, integer, the
serialized form of a `Decimal`, or the serialized date of an instant. -/
inductive ESVal where
  | s (v : String)
  | i (n : Int)
  | dec (n : Dec)
  | date (day : Int)
deriving DecidableEq, Repr

/-- The search-index query expressions the compiler emits (`es_Q(...)`
shapes: `term`, `match`, `match_phrase`, `range`, `exists`, `ids`, `nested`,
and the boolean connectives). -/
inductive ESQ where
  | term (field : String) (value : ESVal)
  | matchQ (field : String) (value : ESVal)
  | matchPhrase (field : String) (value : String)
  | rangeQ (field : String) (lookup : String) (value : ESVal)
  | existsQ (field : String)
  | ids (values : List ESVal)
  | nested (path : String) (q : ESQ)
  | and (a b : ESQ)
  | or (a b : ESQ)
  | not (a : ESQ)
deriving DecidableEq, Repr

/-- `Condition.as_elasticsearch`.  Note the scheme branch: the query value is
lower-cased and the scheme term built first, then an anonymized org returns
the match-nothing `ids [-1]` query; a comparator other than `=`/`~` falls
through leaving only the scheme term (the source `if/elif` has no else). -/
def condAsES (org : Org) (pm : PropMap) (prop comparator : String)
    (value : QueryValue) : Except EvalErr ESQ :=
  match List.lookup prop pm with
  | none => .error .keyError
  | some (.field f) =>
      let base := ESQ.term "fields.field" (.s f.uuid)
      match f.valueType with
      | .text =>
          match valueLower value with
          | .error e => .error e
          | .ok q =>
              if comparator == "=" then
                .ok (.nested "fields" (.and base (.term "fields.text" (.s q))))
              else .error (.value ("Unknown text comparator: " ++ comparator))
      | .number =>
          match parse_number value with
          | .error e => .error e
          | .ok n =>
              if comparator == "=" then
                .ok (.nested "fields" (.and base (.matchQ "fields.number" (.dec n))))
              else if comparator == ">" then
                .ok (.nested "fields" (.and base (.rangeQ "fields.number" "gt" (.dec n))))
              else if comparator == ">=" then
                .ok (.nested "fields" (.and base (.rangeQ "fields.number" "gte" (.dec n))))
              else if comparator == "<" then
                .ok (.nested "fields" (.and base (.rangeQ "fields.number" "lt" (.dec n))))
              else if comparator == "<=" then
                .ok (.nested "fields" (.and base (.rangeQ "fields.number" "lte" (.dec n))))
              else .error (.value ("Unknown number comparator: " ++ comparator))
      | .datetime =>
          match parseQueryDate value f.org with
          | .error e => .error e
          | .ok d =>
              let r := date_to_utc_range d f.org
              let utcDate := ESVal.date (Int.fdiv r.1 86400)
              if comparator == "=" then
                .ok (.nested "fields" (.and base (.matchQ "fields.datetime" utcDate)))
              else if comparator == ">" then
                .ok (.nested "fields" (.and base (.rangeQ "fields.datetime" "gt" utcDate)))
              else if comparator == ">=" then
                .ok (.nested "fields" (.and base (.rangeQ "fields.datetime" "gte" utcDate)))
              else if comparator == "<" then
                .ok (.nested "fields" (.and base (.rangeQ "fields.datetime" "lt" utcDate)))
              else if comparator == "<=" then
                .ok (.nested "fields" (.and base (.rangeQ "fields.datetime" "lte" utcDate)))
              else .error (.value ("Unknown datetime comparator: " ++ comparator))
      | vt =>
          match valueLower value with
          | .error e => .error e
          | .ok q =>
              let fieldName :=
                match vt with
                | .ward => "fields.ward"
                | .district => "fields.district"
                | _ => "fields.state"
              if comparator == "=" then
                .ok (.nested "fields" (.and base (.term (fieldName ++ ".keyword") (.s q))))
              else
                .error (.search ("Unsupported comparator " ++ comparator ++
                  " for location field"))
  | some (.attr a) =>
      match valueLower value with
      | .error e => .error e
      | .ok q =>
          if a == "name" then
            if comparator == "=" then .ok (.term "name.keyword" (.s q))
            else if comparator == "~" then .ok (.matchQ "name" (.s q))
            else .error (.value ("Unknown attribute comparator: " ++ comparator))
          else if a == "id" then .ok (.ids [.s q])
          else .error (.value ("Unknown attribute field " ++ a))
  | some (.scheme sch) =>
      match valueLower value with
      | .error e => .error e
      | .ok q =>
          let esQuery := ESQ.term "urns.scheme" (.s (Str.lower sch))
          if org.isAnon then .ok (.ids [.i (-1)])
          else if comparator == "=" then
            .ok (.nested "urns" (.and esQuery (.term "urns.path.keyword" (.s q))))
          else if comparator == "~" then
            .ok (.nested "urns" (.and esQuery (.matchPhrase "urns.path" q)))
          else .ok (.nested "urns" esQuery)

/-- `IsSetCondition.as_elasticsearch`. -/
def isSetAsES (org : Org) (pm : PropMap) (prop comparator : String) :
    Except EvalErr ESQ :=
  match List.lookup prop pm with
  | none => .error .keyError
  | some entry =>
      match isSetPolarity comparator with
      | .error e => .error e
      | .ok isSet =>
          match entry with
          | .field f =>
              let fieldName :=
                match f.valueType with
                | .text => "fields.text"
                | .number => "fields.number"
                | .datetime => "fields.datetime"
                | .state => "fields.state"
                | .district => "fields.district"
                | .ward => "fields.ward"
              let esQuery := ESQ.and (.term "fields.field" (.s f.uuid)) (.existsQ fieldName)
              .ok (if isSet then .nested "fields" esQuery
                else .not (.nested "fields" esQuery))
          | .scheme sch =>
              if org.isAnon then .ok (.ids [.i (-1)])
              else
                let esQuery :=
                  ESQ.and (.existsQ "urns.path") (.term "urns.scheme" (.s (Str.lower sch)))
                .ok (if isSet then .nested "urns" esQuery
                  else .not (.nested "urns" esQuery))
          | .attr a =>
              if a == "name" then
                .ok (if isSet then .not (.term "name" (.s "")) else .term "name" (.s ""))
              else if a == "id" then
                .error (.search "All contacts have an ID, you cannot check if id is set")
              else .error (.value ("Unknown attribute field " ++ a))

/-- `operator.and_` / `operator.or_` on search-index queries. -/
def esApply (op : BoolOp) (a b : ESQ) : ESQ :=
  match op with
  | .and => .and a b
  | .or => .or a b

/-- `reduce(self.op, es_queries)`. -/
def reduceES (op : BoolOp) : List ESQ → Except EvalErr ESQ
  | [] => .error .typeError
  | q :: qs => .ok (qs.foldl (esApply op) q)

mutual

/-- `QueryNode.as_elasticsearch` (`SinglePropCombination` inherits the
`BoolCombination` reduction; it defines no search-index optimization). -/
def as_elasticsearch (org : Org) (pm : PropMap) : QueryNode → Except EvalErr ESQ
  | .cond p c v => condAsES org pm p c v
  | .isSet p c => isSetAsES org pm p c
  | .bool op cs =>
      match as_elasticsearch_list org pm cs with
      | .error e => .error e
      | .ok qs => reduceES op qs
  | .singleProp _ op cs =>
      match as_elasticsearch_list org pm cs with
      | .error e => .error e
      | .ok qs => reduceES op qs

/-- The child compilation list of `BoolCombination.as_elasticsearch`. -/
def as_elasticsearch_list (org : Org) (pm : PropMap) :
    List QueryNode → Except EvalErr (List ESQ)
  | [] => .ok []
  | c :: cs =>
      match as_elasticsearch org pm c with
      | .error e => .error e
      | .ok q =>
          match as_elasticsearch_list org pm cs with
          | .error e => .error e
          | .ok qs => .ok (q :: qs)

end

/-- A nested `fields` document of the contacts index. -/
structure ESField where
  field : String
  text : Option String
  number : Option Dec
  datetime : Option Int
  state : Option String
  district : Option String
  ward : Option String
deriving DecidableEq, Repr

/-- A nested `urns` document of the contacts index. -/
structure ESUrn where
  scheme : String
  path : String
deriving DecidableEq, Repr

/-- A document of the contacts index (`_id` is the contact primary key, a
non-negative serial). -/
structure ESDoc where
  id : Nat
  name : Option String
  fields : List ESField
  urns : List ESUrn
deriving DecidableEq, Repr

/-- Modelled from the spec: evaluation of an inner query against one nested
`fields` document by the external search-index adapter (the index and its
query DSL are collaborators specified only at the interface; text analysis
is modelled as lower-cased comparison). -/
def esFieldMatch (f : ESField) : ESQ → Bool
  | .term "fields.field" (.s v) => f.field == v
  | .term "fields.text" (.s v) => (f.text.map Str.lower) == some v
  | .term "fields.state.keyword" (.s v) => (f.state.map Str.lower) == some v
  | .term "fields.district.keyword" (.s v) => (f.district.map Str.lower) == some v
  | .term "fields.ward.keyword" (.s v) => (f.ward.map Str.lower) == some v
  | .matchQ "fields.number" (.dec n) =>
      match f.number with
      | some m => m.eqv n
      | none => false
  | .rangeQ "fields.number" lk (.dec n) =>
      match f.number with
      | some m => decLookupApply lk n m
      | none => false
  | .matchQ "fields.datetime" (.date d) =>
      match f.datetime with
      | some t => decide (d * 86400 ≤ t) && decide (t < (d + 1) * 86400)
      | none => false
  | .rangeQ "fields.datetime" lk (.date d) =>
      match f.datetime with
      | some t =>
          let td := Int.fdiv t 86400
          if lk == "gt" then decide (d < td)
          else if lk == "gte" then decide (d ≤ td)
          else if lk == "lt" then decide (td < d)
          else if lk == "lte" then decide (td ≤ d)
          else false
      | none => false
  | .existsQ "fields.text" => f.text.isSome
  | .existsQ "fields.number" => f.number.isSome
  | .existsQ "fields.datetime" => f.datetime.isSome
  | .existsQ "fields.state" => f.state.isSome
  | .existsQ "fields.district" => f.district.isSome
  | .existsQ "fields.ward" => f.ward.isSome
  | .and a b => esFieldMatch f a && esFieldMatch f b
  | .or a b => esFieldMatch f a || esFieldMatch f b
  | .not a => !esFieldMatch f a
  | _ => false

/-- Modelled from the spec: evaluation of an inner query against one nested
`urns` document by the external search-index adapter. -/
def esUrnMatch (u : ESUrn) : ESQ → Bool
  | .term "urns.scheme" (.s v) => Str.lower u.scheme == v
  | .term "urns.path.keyword" (.s v) => Str.lower u.path == v
  | .matchPhrase "urns.path" v => strIn (Str.lower v) (Str.lower u.path)
  | .existsQ "urns.path" => true
  | .and a b => esUrnMatch u a && esUrnMatch u b
  | .or a b => esUrnMatch u a || esUrnMatch u b
  | .not a => !esUrnMatch u a
  | _ => false

/-- Modelled from the spec: evaluation of a compiled search-index query
against one contact document by the external adapter.  An `ids` query
matches documents whose `_id` is among the listed values. -/
def matchesES (doc : ESDoc) : ESQ → Bool
  | .ids vals =>
      vals.any (fun v =>
        match v with
        | .i n => n == (doc.id : Int)
        | .s str => str == toString doc.id
        | _ => false)
  | .nested "fields" q => doc.fields.any (fun f => esFieldMatch f q)
  | .nested "urns" q => doc.urns.any (fun u => esUrnMatch u q)
  | .term "name.keyword" (.s v) => (doc.name.map Str.lower) == some v
  | .term "name" (.s v) => (doc.name.getD "") == v
  | .matchQ "name" (.s v) => strIn v (Str.lower (doc.name.getD ""))
  | .and a b => matchesES doc a && matchesES doc b
  | .or a b => matchesES doc a || matchesES doc b
  | .not a => !matchesES doc a
  | _ => false

/-- The `TEL_VALUE_REGEX` character class `[+ \d\-\(\)]`. -/
def isTelChar (c : Char) : Bool :=
  c.isDigit || c == '+' || c == ' ' || c == '-' || c == '(' || c == ')'

/-- `TEL_VALUE_REGEX.match(text)`: at least one character, all from the
phone class. -/
def tel_value_match (text : String) : Bool :=
  !text.data.isEmpty && text.data.all isTelChar

/-- The `CLEAN_SPECIAL_CHARS_REGEX` character class `[+ \-\(\)]` (note that
it contains `+`). -/
def isCleanSpecialChar (c : Char) : Bool :=
  c == '+' || c == ' ' || c == '-' || c == '(' || c == ')'

/-- `CLEAN_SPECIAL_CHARS_REGEX.sub('', text)`. -/
def clean_special_chars (text : String) : String :=
  ⟨text.data.filter (fun c => !isCleanSpecialChar c)⟩

/-- `is_phonenumber(text)`: `(True, cleaned)` when the text looks like a
phone number, else `(False, None)`. -/
def is_phonenumber (text : String) : Bool × Option String :=
  if tel_value_match text then (true, some (clean_special_chars text))
  else (false, none)

/-- Python `int(s)` on a decimal literal with optional sign. -/
def pyIntParse (s : String) : Option Int :=
  let neg := Str.startsWith s "-"
  let body : String :=
    if Str.startsWith s "-" || Str.startsWith s "+" then ⟨s.data.drop 1⟩ else s
  (Str.toNatQ body).map (fun n => if neg then -(n : Int) else (n : Int))

/-- `ContactQLVisitor.visitCondition`: lower-case the property and
comparator tokens, then build an `IsSetCondition` when the literal is the
empty string and a plain `Condition` otherwise (both apply the comparator
aliases of `Condition.__init__`). -/
def visitCondition (prop comparator value : String) : QueryNode :=
  if value == "" then .isSet (Str.lower prop) (aliasComparator (Str.lower comparator))
  else .cond (Str.lower prop) (aliasComparator (Str.lower comparator)) (.str value)

/-- `ContactQLVisitor.visitImplicitCondition`: for an anonymized org an
integer token becomes an `id =` condition; otherwise a phone-looking token
becomes a `tel ~` condition; anything else a `name ~` condition. -/
def visitImplicitCondition (asAnon : Bool) (value : String) : QueryNode :=
  if asAnon then
    match pyIntParse value with
    | some n => .cond "id" "=" (.str (toString n))
    | none => .cond "name" "~" (.str value)
  else if tel_value_match value then .cond "tel" "~" (.str value)
  else .cond "name" "~" (.str value)

/-- Modelled from the spec: the grammar front-end (external ANTLR lexer and
parser, not under `src/`) lexing of a bare token — a non-empty run of
letters and digits with no operators, whitespace or quotes is a single TEXT
token forming an implicit condition. -/
def tokenizeImplicit (s : String) : Option String :=
  if !s.data.isEmpty && s.data.all Char.isAlphanum then some s else none

/-- `parse_query` restricted to implicit (bare-token) queries: the phone
heuristic of lines 1027-1032 picks the input stream, the front-end lexes a
single TEXT token (spec-modelled `tokenizeImplicit`), and
`visitImplicitCondition` builds the AST (such a one-condition query is left
unchanged by `optimized()`). -/
def parse_implicit_query (text : String) (asAnon : Bool) : Option QueryNode :=
  let pr := is_phonenumber text
  let stream := if !asAnon && pr.1 then pr.2.getD text else text
  (tokenizeImplicit stream).map (visitImplicitCondition asAnon)

namespace QueryNode

mutual

/-- Well-formedness used by the optimizer claims: every combination node has
a non-empty children list (the builder always supplies exactly two, per the
data model `length >= 2`). -/
def noEmptyComb : QueryNode → Bool
  | .cond _ _ _ => true
  | .isSet _ _ => true
  | .bool _ cs => !cs.isEmpty && noEmptyCombList cs
  | .singleProp _ _ cs => !cs.isEmpty && noEmptyCombList cs

/-- `noEmptyComb` over a children list. -/
def noEmptyCombList : List QueryNode → Bool
  | [] => true
  | c :: cs => noEmptyComb c && noEmptyCombList cs

end

/-- The child shape demanded by the `SinglePropCombination.__init__`
assertion: `isinstance(c, Condition) and c.prop == prop`. -/
def condWithProp (p : String) : QueryNode → Bool
  | .cond p' _ _ => p' == p
  | .isSet p' _ => p' == p
  | _ => false

mutual

/-- The `SinglePropCombination.__init__` assertion holding at every
`SinglePropCombination` node of a tree. -/
def spcAssertOK : QueryNode → Bool
  | .cond _ _ _ => true
  | .isSet _ _ => true
  | .bool _ cs => spcAssertOKList cs
  | .singleProp p _ cs => cs.all (condWithProp p) && spcAssertOKList cs

/-- `spcAssertOK` over a children list. -/
def spcAssertOKList : List QueryNode → Bool
  | [] => true
  | c :: cs => spcAssertOK c && spcAssertOKList cs

end

/-- The distinct grouping keys of a children list in first-occurrence order —
the specification-side rendering of "children sharing the same property name
are grouped, preserving first-occurrence order". -/
def firstKeys (cs : List QueryNode) : List (Option String) :=
  cs.foldl (fun ks c => if ks.contains c.propKey then ks else ks ++ [c.propKey]) []

end QueryNode

namespace ValueQ

/-- Number of `params` leaves (sub-queries against the `Value` table) in a
compiled `Value`-table query. -/
def paramsCount : ValueQ → Nat
  | .params _ => 1
  | .and a b => a.paramsCount + b.paramsCount
  | .or a b => a.paramsCount + b.paramsCount

/-- Every `params` leaf is a datetime range test (in particular none is a
multi-value membership test). -/
def allDatetimeRanges : ValueQ → Bool
  | .params (.datetimeRange _ _ _) => true
  | .params _ => false
  | .and a b => a.allDatetimeRanges && b.allDatetimeRanges
  | .or a b => a.allDatetimeRanges && b.allDatetimeRanges

end ValueQ

namespace QueryNode

theorem strongInduction (P : QueryNode → Prop)
    (h : ∀ t, (∀ s : QueryNode, sizeOf s < sizeOf t → P s) → P t) : ∀ t, P t := by
  intro t
  generalize hn : sizeOf t = n
  induction n using Nat.strong_induction_on generalizing t with
  | _ n ih =>
      subst hn
      exact h t (fun s hs => ih (sizeOf s) hs s rfl)

theorem simplifyList_eq_map (cs : List QueryNode) : simplifyList cs = cs.map simplify := by
  induction cs with
  | nil => rfl
  | cons c cs ih => simp [simplifyList, ih]

theorem splitByPropList_eq_map (cs : List QueryNode) :
    splitByPropList cs = cs.map splitByProp := by
  induction cs with
  | nil => rfl
  | cons c cs ih => simp [splitByPropList, ih]

theorem nodeOp_simplify (c : QueryNode) : c.simplify.nodeOp = c.nodeOp := by
  cases c with
  | cond p c v => rfl
  | isSet p c => rfl
  | bool op cs =>
      simp only [simplify]
      split <;> rfl
  | singleProp p op cs =>
      simp only [simplify]
      split <;> rfl

end QueryNode

open QueryNode in
/-- C5: a `BoolCombination` whose child combinations all carry its own
operator is flattened by `simplify()` into a single combination absorbing
those children; in particular `simplify` of `OR(OR(a,b),c)` is
`BoolCombination(OR, [a,b,c])`, while a nested combination with a different
operator (`OR(AND(a,b),c)`) is left unflattened. -/
theorem C5_simplify_flattening :
    (∀ (op : BoolOp) (cs : List QueryNode),
        (∀ c ∈ cs, ∀ o, c.nodeOp = some o → o = op) →
        simplify (.bool op cs) = .bool op ((cs.map simplify).flatMap expandChild)) ∧
    simplify (.bool .or [.bool .or [.cond "a" "=" (.str "1"), .cond "b" "=" (.str "2")],
        .cond "c" "=" (.str "3")]) =
      .bool .or [.cond "a" "=" (.str "1"), .cond "b" "=" (.str "2"),
        .cond "c" "=" (.str "3")] ∧
    simplify (.bool .or [.bool .and [.cond "a" "=" (.str "1"), .cond "b" "=" (.str "2")],
        .cond "c" "=" (.str "3")]) =
      .bool .or [.bool .and [.cond "a" "=" (.str "1"), .cond "b" "=" (.str "2")],
        .cond "c" "=" (.str "3")] := by
  refine ⟨?_, rfl, rfl⟩
  intro op cs h
  have hall : ((simplifyList cs).all
      (fun c => match c.nodeOp with | none => true | some o => o == op)) = true := by
    rw [simplifyList_eq_map, List.all_eq_true]
    intro c hc
    rcases List.mem_map.mp hc with ⟨c0, hc0, rfl⟩
    cases hop : (simplify c0).nodeOp with
    | none => simp [hop]
    | some o =>
        have ho : o = op := h c0 hc0 o (by rw [← nodeOp_simplify]; exact hop)
        simp [hop, ho]
  rw [simplifyList_eq_map] at hall
  simp only [simplify, simplifyList_eq_map, hall, if_true]

open QueryNode in
/-- Witness for `C5_simplify_flattening` at a concrete AND tree. -/
theorem C5_simplify_flattening_witness :
    simplify (.bool .and [.bool .and [.cond "x" "=" (.str "1"), .cond "y" "=" (.str "2")],
        .isSet "z" "!="]) =
      .bool .and [.cond "x" "=" (.str "1"), .cond "y" "=" (.str "2"), .isSet "z" "!="] := by
  have h := C5_simplify_flattening.1 .and
    [.bool .and [.cond "x" "=" (.str "1"), .cond "y" "=" (.str "2")], .isSet "z" "!="]
    (by
      intro c hc o ho
      rcases List.mem_cons.mp hc with rfl | hc
      · simpa [nodeOp] using ho.symm
      · rcases List.mem_cons.mp hc with rfl | hc
        · simp [nodeOp] at ho
        · simp at hc)
  exact h

namespace QueryNode

theorem noEmptyCombList_iff (cs : List QueryNode) :
    noEmptyCombList cs = true ↔ ∀ c ∈ cs, noEmptyComb c = true := by
  induction cs with
  | nil => simp [noEmptyCombList]
  | cons c cs ih => simp [noEmptyCombList, ih]

theorem noEmptyComb_bool_iff (op : BoolOp) (cs : List QueryNode) :
    noEmptyComb (.bool op cs) = true ↔ cs ≠ [] ∧ ∀ c ∈ cs, noEmptyComb c = true := by
  cases cs with
  | nil => simp [noEmptyComb, noEmptyCombList]
  | cons c cs => simp [noEmptyComb, noEmptyCombList_iff]

theorem noEmptyComb_singleProp_iff (p : String) (op : BoolOp) (cs : List QueryNode) :
    noEmptyComb (.singleProp p op cs) = true ↔ cs ≠ [] ∧ ∀ c ∈ cs, noEmptyComb c = true := by
  cases cs with
  | nil => simp [noEmptyComb, noEmptyCombList]
  | cons c cs => simp [noEmptyComb, noEmptyCombList_iff]

theorem expandChild_ne_nil (c : QueryNode) (hwf : noEmptyComb c = true) :
    expandChild c ≠ [] := by
  cases c with
  | cond p c v => simp [expandChild]
  | isSet p c => simp [expandChild]
  | bool op cs => exact ((noEmptyComb_bool_iff op cs).mp hwf).1
  | singleProp p op cs => exact ((noEmptyComb_singleProp_iff p op cs).mp hwf).1

theorem noEmptyComb_expand (c : QueryNode) (h : noEmptyComb c = true) :
    ∀ x ∈ expandChild c, noEmptyComb x = true := by
  cases c with
  | cond p c v => intro x hx; simp [expandChild] at hx; subst hx; rfl
  | isSet p c => intro x hx; simp [expandChild] at hx; subst hx; rfl
  | bool op cs => exact ((noEmptyComb_bool_iff op cs).mp h).2
  | singleProp p op cs => exact ((noEmptyComb_singleProp_iff p op cs).mp h).2

theorem flatMap_expand_ne_nil (cs : List QueryNode) (hne : cs ≠ [])
    (h : ∀ c ∈ cs, noEmptyComb c = true) : cs.flatMap expandChild ≠ [] := by
  obtain ⟨d, cs0, rfl⟩ := List.exists_cons_of_ne_nil hne
  have hd := expandChild_ne_nil d (h d (List.mem_cons_self _ _))
  simp only [List.flatMap_cons, ne_eq, List.append_eq_nil]
  intro hcon
  exact hd hcon.1

end QueryNode

theorem evaluateList_cons (pm : PropMap) (cj : ContactJson) (c : QueryNode)
    (cs : List QueryNode) :
    evaluateList pm cj (c :: cs) =
      match evaluate pm cj c with
      | .error e => .error e
      | .ok b =>
          match evaluateList pm cj cs with
          | .error e => .error e
          | .ok bs => .ok (b :: bs) := rfl

theorem evaluateList_append (pm : PropMap) (cj : ContactJson) (xs ys : List QueryNode) :
    evaluateList pm cj (xs ++ ys) =
      match evaluateList pm cj xs with
      | .error e => .error e
      | .ok bs =>
          match evaluateList pm cj ys with
          | .error e => .error e
          | .ok cs => .ok (bs ++ cs) := by
  induction xs with
  | nil =>
      cases hys : evaluateList pm cj ys with
      | error e => simp [evaluateList, hys]
      | ok cs => simp [evaluateList, hys]
  | cons c xs ih =>
      rw [List.cons_append, evaluateList_cons, evaluateList_cons, ih]
      cases hc : evaluate pm cj c with
      | error e => rfl
      | ok b =>
          cases hxs : evaluateList pm cj xs with
          | error e => rfl
          | ok bs =>
              cases hys : evaluateList pm cj ys with
              | error e => rfl
              | ok cs => rfl

theorem evaluateList_ok_length (pm : PropMap) (cj : ContactJson) (cs : List QueryNode)
    (bs : List Bool) (h : evaluateList pm cj cs = .ok bs) : bs.length = cs.length := by
  induction cs generalizing bs with
  | nil =>
      simp only [evaluateList] at h
      injection h with h
      subst h
      rfl
  | cons c cs ih =>
      simp only [evaluateList] at h
      cases hc : evaluate pm cj c with
      | error e => rw [hc] at h; cases h
      | ok b =>
          rw [hc] at h
          cases hcs : evaluateList pm cj cs with
          | error e => rw [hcs] at h; cases h
          | ok bs0 =>
              rw [hcs] at h
              injection h with h
              subst h
              simp [ih bs0 hcs]

theorem boolApply_assoc (op : BoolOp) (x y z : Bool) :
    boolApply op (boolApply op x y) z = boolApply op x (boolApply op y z) := by
  cases op <;> simp [boolApply, Bool.and_assoc, Bool.or_assoc]

theorem foldl_boolApply (op : BoolOp) (a c : Bool) (cs : List Bool) :
    cs.foldl (boolApply op) (boolApply op a c) =
      boolApply op a (cs.foldl (boolApply op) c) := by
  induction cs generalizing c with
  | nil => rfl
  | cons d cs ih => simp only [List.foldl_cons, boolApply_assoc, ih]

theorem reduceBools_append (op : BoolOp) (bs cs : List Bool) (hb : bs ≠ []) (hc : cs ≠ []) :
    reduceBools op (bs ++ cs) =
      match reduceBools op bs with
      | .error e => .error e
      | .ok x =>
          match reduceBools op cs with
          | .error e => .error e
          | .ok y => .ok (boolApply op x y) := by
  obtain ⟨b, bs0, rfl⟩ := List.exists_cons_of_ne_nil hb
  obtain ⟨c, cs0, rfl⟩ := List.exists_cons_of_ne_nil hc
  show Except.ok ((bs0 ++ c :: cs0).foldl (boolApply op) b) =
    Except.ok (boolApply op (bs0.foldl (boolApply op) b) (cs0.foldl (boolApply op) c))
  rw [List.foldl_append]
  simp only [List.foldl_cons]
  rw [foldl_boolApply]

theorem evaluate_singleProp_eq_bool (pm : PropMap) (cj : ContactJson) (p : String)
    (op : BoolOp) (cs : List QueryNode) :
    evaluate pm cj (.singleProp p op cs) = evaluate pm cj (.bool op cs) := rfl

theorem evaluate_bool_singleton (pm : PropMap) (cj : ContactJson) (op : BoolOp)
    (c : QueryNode) : evaluate pm cj (.bool op [c]) = evaluate pm cj c := by
  simp only [evaluate, evaluateList]
  cases hc : evaluate pm cj c with
  | error e => rfl
  | ok b => rfl

theorem evaluate_bool_append (pm : PropMap) (cj : ContactJson) (op : BoolOp)
    (xs ys : List QueryNode) (hx : xs ≠ []) (hy : ys ≠ []) :
    evaluate pm cj (.bool op (xs ++ ys)) =
      match evaluate pm cj (.bool op xs) with
      | .error e => .error e
      | .ok x =>
          match evaluate pm cj (.bool op ys) with
          | .error e => .error e
          | .ok y => .ok (boolApply op x y) := by
  have unfold1 : ∀ l, evaluate pm cj (.bool op l) =
      match evaluateList pm cj l with
      | .error e => .error e
      | .ok bs => reduceBools op bs := fun l => rfl
  rw [unfold1, unfold1, unfold1, evaluateList_append]
  cases hxs : evaluateList pm cj xs with
  | error e => rfl
  | ok bs =>
      have hbs : bs ≠ [] := by
        intro h0
        apply hx
        have hlen := evaluateList_ok_length pm cj xs bs hxs
        subst h0
        simpa using List.eq_nil_of_length_eq_zero hlen.symm
      obtain ⟨b, bs0, rfl⟩ := List.exists_cons_of_ne_nil hbs
      cases hys : evaluateList pm cj ys with
      | error e => rfl
      | ok cs =>
          have hcs : cs ≠ [] := by
            intro h0
            apply hy
            have hlen := evaluateList_ok_length pm cj ys cs hys
            subst h0
            simpa using List.eq_nil_of_length_eq_zero hlen.symm
          show reduceBools op (b :: bs0 ++ cs) =
            (match reduceBools op (b :: bs0) with
             | .error e => .error e
             | .ok x =>
                 match reduceBools op cs with
                 | .error e => .error e
                 | .ok y => .ok (boolApply op x y))
          exact reduceBools_append op (b :: bs0) cs (by simp) hcs

open QueryNode in
theorem evaluate_bool_expand (pm : PropMap) (cj : ContactJson) (op : BoolOp)
    (c : QueryNode) (hop : ∀ o, c.nodeOp = some o → o = op) :
    evaluate pm cj (.bool op c.expandChild) = evaluate pm cj c := by
  cases c with
  | cond p c v => exact evaluate_bool_singleton pm cj op _
  | isSet p c => exact evaluate_bool_singleton pm cj op _
  | bool op2 gs =>
      have h2 : op2 = op := hop op2 rfl
      subst h2
      rfl
  | singleProp p op2 gs =>
      have h2 : op2 = op := hop op2 rfl
      subst h2
      rfl

open QueryNode in
theorem evaluate_bool_flatten (pm : PropMap) (cj : ContactJson) (op : BoolOp)
    (cs : List QueryNode) (hne : cs ≠ [])
    (h : ∀ c ∈ cs, (∀ o, c.nodeOp = some o → o = op) ∧ noEmptyComb c = true) :
    evaluate pm cj (.bool op (cs.flatMap expandChild)) = evaluate pm cj (.bool op cs) := by
  induction cs with
  | nil => exact absurd rfl hne
  | cons c cs ih =>
      rcases h c (List.mem_cons_self _ _) with ⟨hop, hwf⟩
      by_cases hcs : cs = []
      · subst hcs
        simp only [List.flatMap_cons, List.flatMap_nil, List.append_nil]
        rw [evaluate_bool_expand pm cj op c hop, ← evaluate_bool_singleton pm cj op c]
      · have hrest : ∀ x ∈ cs, (∀ o, x.nodeOp = some o → o = op) ∧ noEmptyComb x = true :=
          fun x hx => h x (List.mem_cons_of_mem _ hx)
        have hexp : expandChild c ≠ [] := expandChild_ne_nil c hwf
        have hflat : cs.flatMap expandChild ≠ [] :=
          flatMap_expand_ne_nil cs hcs (fun x hx => (hrest x hx).2)
        rw [List.flatMap_cons, evaluate_bool_append pm cj op _ _ hexp hflat,
          evaluate_bool_expand pm cj op c hop, ih hcs hrest,
          show (c :: cs) = [c] ++ cs from rfl,
          evaluate_bool_append pm cj op [c] cs (by simp) hcs,
          evaluate_bool_singleton]

open QueryNode in
theorem evaluateList_congr (pm : PropMap) (cj : ContactJson) (cs : List QueryNode)
    (h : ∀ c ∈ cs, evaluate pm cj c.simplify = evaluate pm cj c) :
    evaluateList pm cj (cs.map simplify) = evaluateList pm cj cs := by
  induction cs with
  | nil => rfl
  | cons c cs ih =>
      simp only [List.map_cons, evaluateList, h c (List.mem_cons_self _ _),
        ih (fun x hx => h x (List.mem_cons_of_mem _ hx))]

open QueryNode in
theorem noEmptyComb_simplify :
    ∀ t : QueryNode, noEmptyComb t = true → noEmptyComb t.simplify = true := by
  refine strongInduction (fun t => noEmptyComb t = true → noEmptyComb t.simplify = true) ?_
  intro t ih hwf
  cases t with
  | cond p c v => exact hwf
  | isSet p c => exact hwf
  | bool op cs =>
      obtain ⟨hne, hall⟩ := (noEmptyComb_bool_iff op cs).mp hwf
      have hsize : ∀ c ∈ cs, sizeOf c < sizeOf (QueryNode.bool op cs) := by
        intro c hc
        have := List.sizeOf_lt_of_mem hc
        simp only [QueryNode.bool.sizeOf_spec]
        omega
      have hmap : ∀ c2 ∈ cs.map simplify, noEmptyComb c2 = true := by
        intro c2 hc2
        rcases List.mem_map.mp hc2 with ⟨c0, hc0, rfl⟩
        exact ih c0 (hsize c0 hc0) (hall c0 hc0)
      have hmapne : cs.map simplify ≠ [] := by
        intro h0
        exact hne (List.map_eq_nil_iff.mp h0)
      simp only [simplify, simplifyList_eq_map]
      split
      · exact (noEmptyComb_bool_iff op _).mpr
          ⟨flatMap_expand_ne_nil _ hmapne hmap,
           fun x hx => by
            rcases List.mem_flatMap.mp hx with ⟨c2, hc2, hxin⟩
            exact noEmptyComb_expand c2 (hmap c2 hc2) x hxin⟩
      · exact (noEmptyComb_bool_iff op _).mpr ⟨hmapne, hmap⟩
  | singleProp p op cs =>
      obtain ⟨hne, hall⟩ := (noEmptyComb_singleProp_iff p op cs).mp hwf
      have hsize : ∀ c ∈ cs, sizeOf c < sizeOf (QueryNode.singleProp p op cs) := by
        intro c hc
        have := List.sizeOf_lt_of_mem hc
        simp only [QueryNode.singleProp.sizeOf_spec]
        omega
      have hmap : ∀ c2 ∈ cs.map simplify, noEmptyComb c2 = true := by
        intro c2 hc2
        rcases List.mem_map.mp hc2 with ⟨c0, hc0, rfl⟩
        exact ih c0 (hsize c0 hc0) (hall c0 hc0)
      have hmapne : cs.map simplify ≠ [] := by
        intro h0
        exact hne (List.map_eq_nil_iff.mp h0)
      simp only [simplify, simplifyList_eq_map]
      split
      · exact (noEmptyComb_bool_iff op _).mpr
          ⟨flatMap_expand_ne_nil _ hmapne hmap,
           fun x hx => by
            rcases List.mem_flatMap.mp hx with ⟨c2, hc2, hxin⟩
            exact noEmptyComb_expand c2 (hmap c2 hc2) x hxin⟩
      · exact (noEmptyComb_singleProp_iff p op _).mpr ⟨hmapne, hmap⟩

open QueryNode in
theorem evaluate_simplify_aux :
    ∀ t : QueryNode, ∀ pm : PropMap, ∀ cj : ContactJson,
      noEmptyComb t = true → evaluate pm cj t.simplify = evaluate pm cj t := by
  refine strongInduction _ ?_
  intro t ih pm cj hwf
  cases t with
  | cond p c v => rfl
  | isSet p c => rfl
  | bool op cs =>
      obtain ⟨hne, hall⟩ := (noEmptyComb_bool_iff op cs).mp hwf
      have hsize : ∀ c ∈ cs, sizeOf c < sizeOf (QueryNode.bool op cs) := by
        intro c hc
        have := List.sizeOf_lt_of_mem hc
        simp only [QueryNode.bool.sizeOf_spec]
        omega
      have hpoint : ∀ c ∈ cs, evaluate pm cj c.simplify = evaluate pm cj c :=
        fun c hc => ih c (hsize c hc) pm cj (hall c hc)
      have h1 : ∀ l, evaluate pm cj (.bool op l) =
          match evaluateList pm cj l with
          | .error e => .error e
          | .ok bs => reduceBools op bs := fun l => rfl
      have hcongr : evaluate pm cj (.bool op (cs.map simplify)) =
          evaluate pm cj (.bool op cs) := by
        rw [h1, h1, evaluateList_congr pm cj cs hpoint]
      have hmapne : cs.map simplify ≠ [] := fun h0 => hne (List.map_eq_nil_iff.mp h0)
      by_cases hcond : ((simplifyList cs).all
          (fun c => match c.nodeOp with | none => true | some o => o == op)) = true
      · have hstep : simplify (.bool op cs) =
            .bool op ((simplifyList cs).flatMap expandChild) := by
          simp only [simplify, hcond, if_true]
        rw [hstep, simplifyList_eq_map]
        have hasprops : ∀ c2 ∈ cs.map simplify,
            (∀ o, c2.nodeOp = some o → o = op) ∧ noEmptyComb c2 = true := by
          intro c2 hc2
          rw [simplifyList_eq_map] at hcond
          constructor
          · intro o ho
            have := List.all_eq_true.mp hcond c2 hc2
            rw [ho] at this
            simpa using this
          · rcases List.mem_map.mp hc2 with ⟨c0, hc0, rfl⟩
            exact noEmptyComb_simplify c0 (hall c0 hc0)
        rw [evaluate_bool_flatten pm cj op _ hmapne hasprops]
        exact hcongr
      · have hstep : simplify (.bool op cs) = .bool op (simplifyList cs) := by
          simp only [simplify]
          rw [if_neg hcond]
        rw [hstep, simplifyList_eq_map]
        exact hcongr
  | singleProp p op cs =>
      obtain ⟨hne, hall⟩ := (noEmptyComb_singleProp_iff p op cs).mp hwf
      have hsize : ∀ c ∈ cs, sizeOf c < sizeOf (QueryNode.singleProp p op cs) := by
        intro c hc
        have := List.sizeOf_lt_of_mem hc
        simp only [QueryNode.singleProp.sizeOf_spec]
        omega
      have hpoint : ∀ c ∈ cs, evaluate pm cj c.simplify = evaluate pm cj c :=
        fun c hc => ih c (hsize c hc) pm cj (hall c hc)
      have h1 : ∀ l, evaluate pm cj (.bool op l) =
          match evaluateList pm cj l with
          | .error e => .error e
          | .ok bs => reduceBools op bs := fun l => rfl
      have hcongr : evaluate pm cj (.bool op (cs.map simplify)) =
          evaluate pm cj (.bool op cs) := by
        rw [h1, h1, evaluateList_congr pm cj cs hpoint]
      have hmapne : cs.map simplify ≠ [] := fun h0 => hne (List.map_eq_nil_iff.mp h0)
      by_cases hcond : ((simplifyList cs).all
          (fun c => match c.nodeOp with | none => true | some o => o == op)) = true
      · have hstep : simplify (.singleProp p op cs) =
            .bool op ((simplifyList cs).flatMap expandChild) := by
          simp only [simplify, hcond, if_true]
        rw [hstep, simplifyList_eq_map]
        have hasprops : ∀ c2 ∈ cs.map simplify,
            (∀ o, c2.nodeOp = some o → o = op) ∧ noEmptyComb c2 = true := by
          intro c2 hc2
          rw [simplifyList_eq_map] at hcond
          constructor
          · intro o ho
            have := List.all_eq_true.mp hcond c2 hc2
            rw [ho] at this
            simpa using this
          · rcases List.mem_map.mp hc2 with ⟨c0, hc0, rfl⟩
            exact noEmptyComb_simplify c0 (hall c0 hc0)
        rw [evaluate_bool_flatten pm cj op _ hmapne hasprops]
        rw [evaluate_singleProp_eq_bool]
        exact hcongr
      · have hstep : simplify (.singleProp p op cs) = .singleProp p op (simplifyList cs) := by
          simp only [simplify]
          rw [if_neg hcond]
        rw [hstep, simplifyList_eq_map, evaluate_singleProp_eq_bool,
          evaluate_singleProp_eq_bool]
        exact hcongr

open QueryNode in
/-- C6: for every query tree (with the builder invariant that combination
nodes carry at least one child), every property map and every contact
record, evaluating the result of `simplify()` yields the same outcome as
evaluating the original tree — the flattening pass never changes evaluation
semantics (errors included). -/
theorem C6_simplify_preserves_evaluate (t : QueryNode) (pm : PropMap) (cj : ContactJson)
    (hwf : noEmptyComb t = true) :
    evaluate pm cj t.simplify = evaluate pm cj t :=
  evaluate_simplify_aux t pm cj hwf

open QueryNode in
/-- Witness for `C6_simplify_preserves_evaluate` on a concrete tree and
contact record. -/
theorem C6_simplify_preserves_evaluate_witness :
    noEmptyComb (.bool .or [.bool .or [.cond "tel" "=" (.str "123"),
        .cond "tel" "~" (.str "5")], .isSet "tel" "!="]) = true ∧
    evaluate [("tel", .scheme "tel")] ⟨[], [⟨"tel", "123"⟩]⟩
        (simplify (.bool .or [.bool .or [.cond "tel" "=" (.str "123"),
          .cond "tel" "~" (.str "5")], .isSet "tel" "!="])) =
      evaluate [("tel", .scheme "tel")] ⟨[], [⟨"tel", "123"⟩]⟩
        (.bool .or [.bool .or [.cond "tel" "=" (.str "123"),
          .cond "tel" "~" (.str "5")], .isSet "tel" "!="]) :=
  ⟨rfl, C6_simplify_preserves_evaluate _ _ _ rfl⟩

namespace QueryNode

theorem firstKeys_append (cs : List QueryNode) (c : QueryNode) :
    firstKeys (cs ++ [c]) =
      if (firstKeys cs).contains c.propKey then firstKeys cs
      else firstKeys cs ++ [c.propKey] := by
  simp [firstKeys, List.foldl_append]

theorem mem_firstKeys (cs : List QueryNode) :
    ∀ k : Option String, k ∈ firstKeys cs ↔ ∃ c ∈ cs, c.propKey = k := by
  induction cs using List.reverseRecOn with
  | nil => intro k; simp [firstKeys]
  | append_singleton cs c ih =>
      intro k
      rw [firstKeys_append]
      by_cases hc : (firstKeys cs).contains c.propKey
      · rw [if_pos hc]
        have hc2 : ∃ x ∈ cs, x.propKey = c.propKey := (ih _).mp (by simpa using hc)
        rw [ih]
        constructor
        · rintro ⟨x, hx, rfl⟩
          exact ⟨x, by simp [hx], rfl⟩
        · rintro ⟨x, hx, rfl⟩
          rcases List.mem_append.mp hx with hx | hx
          · exact ⟨x, hx, rfl⟩
          · rcases List.mem_singleton.mp hx with rfl
            exact hc2
      · rw [if_neg hc]
        constructor
        · intro hk
          rcases List.mem_append.mp hk with hk | hk
          · rcases (ih k).mp hk with ⟨x, hx, rfl⟩
            exact ⟨x, by simp [hx], rfl⟩
          · rcases List.mem_singleton.mp hk with rfl
            exact ⟨c, by simp, rfl⟩
        · rintro ⟨x, hx, rfl⟩
          rcases List.mem_append.mp hx with hx | hx
          · exact List.mem_append.mpr (Or.inl ((ih _).mpr ⟨x, hx, rfl⟩))
          · rcases List.mem_singleton.mp hx with rfl
            simp

theorem firstKeys_nodup (cs : List QueryNode) : (firstKeys cs).Nodup := by
  induction cs using List.reverseRecOn with
  | nil => simp [firstKeys]
  | append_singleton cs c ih =>
      rw [firstKeys_append]
      by_cases hc : (firstKeys cs).contains c.propKey
      · rw [if_pos hc]; exact ih
      · rw [if_neg hc]
        have hnm : c.propKey ∉ firstKeys cs := by simpa using hc
        simp [List.nodup_append, ih, hnm]

theorem insertByProp_not_mem (acc : List (Option String × List QueryNode))
    (k : Option String) (c : QueryNode) (h : ∀ kg ∈ acc, kg.1 ≠ k) :
    insertByProp acc k c = acc ++ [(k, [c])] := by
  induction acc with
  | nil => rfl
  | cons kg acc ih =>
      obtain ⟨k2, g⟩ := kg
      have hne : k2 ≠ k := h (k2, g) (List.mem_cons_self _ _)
      simp only [insertByProp]
      rw [if_neg (by simpa using hne)]
      simp [ih (fun x hx => h x (List.mem_cons_of_mem _ hx))]

theorem insertByProp_mem (acc : List (Option String × List QueryNode))
    (k : Option String) (c : QueryNode)
    (hnd : (acc.map Prod.fst).Nodup) (hk : k ∈ acc.map Prod.fst) :
    insertByProp acc k c =
      acc.map (fun kg => if kg.1 == k then (kg.1, kg.2 ++ [c]) else kg) := by
  induction acc with
  | nil => simp at hk
  | cons kg acc ih =>
      obtain ⟨k2, g⟩ := kg
      simp only [List.map_cons] at hnd hk
      by_cases he : k2 = k
      · subst he
        simp only [insertByProp, List.map_cons]
        rw [if_pos (by simp)]
        rw [if_pos (by simp)]
        have hnm : ∀ kg2 ∈ acc, kg2.1 ≠ k2 := by
          intro kg2 hkg2 he2
          exact (List.nodup_cons.mp hnd).1 (List.mem_map.mpr ⟨kg2, hkg2, he2⟩)
        have hmapid : acc.map (fun kg2 => if kg2.1 == k2 then (kg2.1, kg2.2 ++ [c]) else kg2) =
            acc.map id := by
          apply List.map_congr_left
          intro kg2 hkg2
          rw [if_neg (by simpa using hnm kg2 hkg2)]
          rfl
        rw [hmapid, List.map_id]
      · have hk2 : k ∈ acc.map Prod.fst := by
          rcases List.mem_cons.mp hk with hk | hk
          · exact absurd hk.symm he
          · exact hk
        simp only [insertByProp, List.map_cons]
        rw [if_neg (by simpa using he)]
        rw [if_neg (by simpa using he)]
        rw [ih (List.nodup_cons.mp hnd).2 hk2]

theorem childrenByProp_eq (cs : List QueryNode) :
    childrenByProp cs =
      (firstKeys cs).map (fun k => (k, cs.filter (fun c => c.propKey == k))) := by
  induction cs using List.reverseRecOn with
  | nil => rfl
  | append_singleton cs c ih =>
      have hstep : childrenByProp (cs ++ [c]) =
          insertByProp (childrenByProp cs) c.propKey c := by
        simp [childrenByProp, List.foldl_append]
      rw [hstep, ih, firstKeys_append]
      have hkeys : ((firstKeys cs).map
          (fun k => (k, cs.filter (fun x => x.propKey == k)))).map Prod.fst =
          firstKeys cs := by
        rw [List.map_map]
        exact List.map_id (firstKeys cs)
      by_cases hc : (firstKeys cs).contains c.propKey
      · rw [if_pos hc]
        rw [insertByProp_mem _ _ _ (by rw [hkeys]; exact firstKeys_nodup cs)
          (by rw [hkeys]; simpa using hc)]
        rw [List.map_map]
        apply List.map_congr_left
        intro k hk
        simp only [Function.comp]
        by_cases hek : k = c.propKey
        · subst hek
          rw [if_pos (by simp)]
          simp [List.filter_append]
        · rw [if_neg (by simpa using hek)]
          have : (c.propKey == k) = false := by
            simpa using fun h => hek h.symm
          simp [List.filter_append, this]
      · rw [if_neg hc]
        have hnm : ∀ kg ∈ (firstKeys cs).map
            (fun k => (k, cs.filter (fun x => x.propKey == k))), kg.1 ≠ c.propKey := by
          intro kg hkg he
          rcases List.mem_map.mp hkg with ⟨k, hk, rfl⟩
          apply hc
          simp only at he
          subst he
          simpa using hk
        rw [insertByProp_not_mem _ _ _ hnm]
        rw [List.map_append]
        congr 1
        · apply List.map_congr_left
          intro k hk
          have hne : (c.propKey == k) = false := by
            have : c.propKey ≠ k := by
              intro he
              apply hc
              subst he
              simpa using hk
            simpa using this
          simp [List.filter_append, hne]
        · have hfil : cs.filter (fun x => x.propKey == c.propKey) = [] := by
            rw [List.filter_eq_nil_iff]
            intro x hx hbeq
            apply hc
            have hxk : x.propKey = c.propKey := by simpa using hbeq
            have : c.propKey ∈ firstKeys cs := (mem_firstKeys cs _).mpr ⟨x, hx, hxk⟩
            simpa using this
          simp [List.filter_append, hfil]

end QueryNode

open QueryNode in
/-- C7: `split_by_prop()` on a `BoolCombination` groups children sharing a
property name in first-occurrence order, wraps each group of more than one
member in a `SinglePropCombination` carrying the original operator and
exactly that group, collapses to the single remaining child when only one
remains, and in particular maps `OR(age>18, gender=M, age<65)` to
`OR(SinglePropCombination(OR,[age>18,age<65]), gender=M)`. -/
theorem C7_split_by_prop_grouping :
    (∀ (op : BoolOp) (cs : List QueryNode),
        splitByProp (.bool op cs) =
          (let cs2 := cs.map splitByProp
           let newChildren := (firstKeys cs2).flatMap (fun k =>
             let g := cs2.filter (fun c => c.propKey == k)
             match k with
             | some p => if g.length > 1 then [QueryNode.singleProp p op g] else g
             | none => g)
           match newChildren with
           | [c] => c
           | cs3 => .bool op cs3)) ∧
    splitByProp (.bool .or [.cond "age" ">" (.str "18"), .cond "gender" "=" (.str "M"),
        .cond "age" "<" (.str "65")]) =
      .bool .or [.singleProp "age" .or [.cond "age" ">" (.str "18"),
        .cond "age" "<" (.str "65")], .cond "gender" "=" (.str "M")] := by
  refine ⟨?_, rfl⟩
  intro op cs
  simp only [splitByProp, splitByPropList_eq_map, childrenByProp_eq, List.flatMap_map]
  have hfun : (fun a =>
      wrapGroup op (a, (cs.map splitByProp).filter (fun c => c.propKey == a))) =
      (fun k : Option String =>
        match k with
        | some p =>
            if ((cs.map splitByProp).filter (fun c => c.propKey == k)).length > 1 then
              [QueryNode.singleProp p op ((cs.map splitByProp).filter (fun c => c.propKey == k))]
            else (cs.map splitByProp).filter (fun c => c.propKey == k)
        | none => (cs.map splitByProp).filter (fun c => c.propKey == k)) := by
    funext k
    cases k <;> rfl
  rw [hfun]

namespace QueryNode

theorem spcAssertOKList_iff (cs : List QueryNode) :
    spcAssertOKList cs = true ↔ ∀ c ∈ cs, spcAssertOK c = true := by
  induction cs with
  | nil => simp [spcAssertOKList]
  | cons c cs ih => simp [spcAssertOKList, ih]

theorem condWithProp_of_propKey (p : String) (c : QueryNode) (h : c.propKey = some p) :
    condWithProp p c = true := by
  cases c with
  | cond p2 c2 v2 =>
      simp only [propKey, Option.some.injEq] at h
      simp [condWithProp, h]
  | isSet p2 c2 =>
      simp only [propKey, Option.some.injEq] at h
      simp [condWithProp, h]
  | bool op cs => simp [propKey] at h
  | singleProp p2 op cs => simp [propKey] at h

theorem splitStep_assertOK (op : BoolOp) (cs2 : List QueryNode)
    (h : ∀ c ∈ cs2, spcAssertOK c = true) :
    spcAssertOK (match (childrenByProp cs2).flatMap (wrapGroup op) with
      | [c] => c
      | cs3 => .bool op cs3) = true := by
  have hmem : ∀ x ∈ (childrenByProp cs2).flatMap (wrapGroup op), spcAssertOK x = true := by
    intro x hx
    rw [childrenByProp_eq] at hx
    rcases List.mem_flatMap.mp hx with ⟨kg, hkg, hxin⟩
    rcases List.mem_map.mp hkg with ⟨k, hk, rfl⟩
    cases k with
    | none =>
        have hxf : x ∈ cs2.filter (fun c => c.propKey == none) := hxin
        exact h x (List.mem_of_mem_filter hxf)
    | some p =>
        by_cases hlen : ((cs2.filter (fun c => c.propKey == some p)).length > 1)
        · simp only [wrapGroup, hlen, if_true, List.mem_singleton] at hxin
          subst hxin
          have hall : ∀ c ∈ cs2.filter (fun c => c.propKey == some p),
              condWithProp p c = true := by
            intro c hc
            exact condWithProp_of_propKey p c (by simpa using List.of_mem_filter hc)
          have hok2 : ∀ c ∈ cs2.filter (fun c => c.propKey == some p),
              spcAssertOK c = true :=
            fun c hc => h c (List.mem_of_mem_filter hc)
          simp only [spcAssertOK, Bool.and_eq_true, List.all_eq_true, spcAssertOKList_iff]
          exact ⟨hall, hok2⟩
        · simp only [wrapGroup, hlen, if_false] at hxin
          exact h x (List.mem_of_mem_filter hxin)
  cases hm : (childrenByProp cs2).flatMap (wrapGroup op) with
  | nil => rfl
  | cons a l =>
      cases l with
      | nil => exact hmem a (by rw [hm]; simp)
      | cons b l2 =>
          have : ∀ c ∈ a :: b :: l2, spcAssertOK c = true := by
            intro c hc
            exact hmem c (by rw [hm]; exact hc)
          simpa only [spcAssertOK, spcAssertOKList_iff] using this

theorem splitByProp_assertOK_aux :
    ∀ t : QueryNode, spcAssertOK t = true → spcAssertOK t.splitByProp = true := by
  refine strongInduction _ ?_
  intro t ih hok
  cases t with
  | cond p c v => exact hok
  | isSet p c => exact hok
  | bool op cs =>
      have hall : ∀ c ∈ cs, spcAssertOK c = true := by
        simpa only [spcAssertOK, spcAssertOKList_iff] using hok
      have hsize : ∀ c ∈ cs, sizeOf c < sizeOf (QueryNode.bool op cs) := by
        intro c hc
        have := List.sizeOf_lt_of_mem hc
        simp only [QueryNode.bool.sizeOf_spec]
        omega
      have hmap : ∀ c2 ∈ cs.map splitByProp, spcAssertOK c2 = true := by
        intro c2 hc2
        rcases List.mem_map.mp hc2 with ⟨c0, hc0, rfl⟩
        exact ih c0 (hsize c0 hc0) (hall c0 hc0)
      show spcAssertOK (splitByProp (.bool op cs)) = true
      simp only [splitByProp, splitByPropList_eq_map]
      exact splitStep_assertOK op (cs.map splitByProp) hmap
  | singleProp p op cs =>
      have hall : ∀ c ∈ cs, spcAssertOK c = true := by
        have := (Bool.and_eq_true _ _).mp hok
        simpa only [spcAssertOKList_iff] using this.2
      have hsize : ∀ c ∈ cs, sizeOf c < sizeOf (QueryNode.singleProp p op cs) := by
        intro c hc
        have := List.sizeOf_lt_of_mem hc
        simp only [QueryNode.singleProp.sizeOf_spec]
        omega
      have hmap : ∀ c2 ∈ cs.map splitByProp, spcAssertOK c2 = true := by
        intro c2 hc2
        rcases List.mem_map.mp hc2 with ⟨c0, hc0, rfl⟩
        exact ih c0 (hsize c0 hc0) (hall c0 hc0)
      show spcAssertOK (splitByProp (.singleProp p op cs)) = true
      simp only [splitByProp, splitByPropList_eq_map]
      exact splitStep_assertOK op (cs.map splitByProp) hmap

end QueryNode

open QueryNode in
/-- C10: on any input satisfying the `SinglePropCombination.__init__`
fail-fast check at every existing `SinglePropCombination` node — in
particular on parser output, which contains none — `split_by_prop()`
produces a tree in which every `SinglePropCombination` again consists only
of `Condition`/`IsSetCondition` children carrying the combination
property, so the constructor assertion never fires on optimizer output. -/
theorem C10_split_by_prop_assertion (t : QueryNode) (h : spcAssertOK t = true) :
    spcAssertOK t.splitByProp = true :=
  splitByProp_assertOK_aux t h

open QueryNode in
/-- Witness for `C10_split_by_prop_assertion` on a concrete tree that is
regrouped into a `SinglePropCombination`. -/
theorem C10_split_by_prop_assertion_witness :
    spcAssertOK (.bool .or [.cond "age" ">" (.str "18"), .cond "gender" "=" (.str "M"),
      .cond "age" "<" (.str "65")]) = true ∧
    spcAssertOK (splitByProp (.bool .or [.cond "age" ">" (.str "18"),
      .cond "gender" "=" (.str "M"), .cond "age" "<" (.str "65")])) = true :=
  ⟨rfl, C10_split_by_prop_assertion _ rfl⟩

/-- C1 counterexample: under an anonymized organization, the in-memory
evaluator still matches URN conditions (it never reads the anonymization
flag), and a whole query that merely contains a URN-scheme condition can
still match contacts relationally through its other disjuncts. -/
theorem C1_anonymized_counterexample :
    evaluate [("tel", PropEntry.scheme "tel")] ⟨[], [⟨"tel", "123"⟩]⟩
        (.cond "tel" "~" (.str "123")) = .ok true ∧
    as_query ⟨true, 0, false⟩
        [("tel", PropEntry.scheme "tel"), ("name", PropEntry.attr "name")]
        (.bool .or [.cond "tel" "=" (.str "123"), .cond "name" "~" (.str "bob")]) =
      .ok (.or (.idEq (-1)) (.attr "name" "icontains" "bob")) ∧
    matchesQ ⟨[], [], []⟩ (.or (.idEq (-1)) (.attr "name" "icontains" "bob"))
        ⟨5, some "Bob"⟩ = true :=
  ⟨rfl, rfl, rfl⟩

/-- C1 amended: every URN-scheme `Condition` (and, for the valid `IsSet`
comparators, every `IsSetCondition`) compiles under an anonymized
organization to the match-nothing relational predicate `Q(id=-1)` and the
match-nothing search-index predicate `ids [-1]`; the in-memory evaluator
does not implement this rule (see the counterexample). -/
theorem C1_anonymized_scheme_matches_nothing (org : Org) (pm : PropMap)
    (prop comparator v sch : String)
    (hanon : org.isAnon = true) (hp : List.lookup prop pm = some (.scheme sch)) :
    condAsQuery org pm prop comparator (.str v) = .ok (.idEq (-1)) ∧
    condAsES org pm prop comparator (.str v) = .ok (.ids [.i (-1)]) ∧
    (∀ (db : DB) (c : Contact), matchesQ db (.idEq (-1)) c = false) ∧
    (∀ doc : ESDoc, matchesES doc (.ids [.i (-1)]) = false) ∧
    (∀ polarity, isSetPolarity comparator = .ok polarity →
      isSetAsQuery org pm prop comparator = .ok (.idEq (-1)) ∧
      isSetAsES org pm prop comparator = .ok (.ids [.i (-1)])) := by
  refine ⟨?_, ?_, ?_, ?_, ?_⟩
  · simp [condAsQuery, hp, hanon]
  · simp [condAsES, hp, hanon, valueLower]
  · intro db c
    simp only [matchesQ, beq_eq_false_iff_ne, ne_eq]
    omega
  · intro doc
    simp only [matchesES, List.any_cons, List.any_nil, Bool.or_false,
      beq_eq_false_iff_ne, ne_eq]
    omega
  · intro polarity hpol
    exact ⟨by simp [isSetAsQuery, hp, hpol, hanon], by simp [isSetAsES, hp, hpol, hanon]⟩

/-- Witness for `C1_anonymized_scheme_matches_nothing` at a concrete org,
property map, scheme condition and document. -/
theorem C1_anonymized_scheme_matches_nothing_witness :
    condAsQuery ⟨true, 0, false⟩ [("twitter", PropEntry.scheme "twitter")]
        "twitter" "=" (.str "jo") = .ok (.idEq (-1)) ∧
    matchesES ⟨7, none, [], [⟨"twitter", "jo"⟩]⟩ (.ids [.i (-1)]) = false :=
  ⟨(C1_anonymized_scheme_matches_nothing ⟨true, 0, false⟩
      [("twitter", PropEntry.scheme "twitter")] "twitter" "=" "jo" "twitter" rfl rfl).1,
   (C1_anonymized_scheme_matches_nothing ⟨true, 0, false⟩
      [("twitter", PropEntry.scheme "twitter")] "twitter" "=" "jo" "twitter" rfl rfl).2.2.2.1
     ⟨7, none, [], [⟨"twitter", "jo"⟩]⟩⟩

/-- C2 counterexample: a condition on the searchable attribute `name` makes
the in-memory evaluator raise `ValueError` (the `PROP_ATTRIBUTE` kind falls
through to the final `else`) instead of returning a comparator boolean, for
both the plain and the `IsSet` variant. -/
theorem C2_attribute_evaluate_counterexample :
    evaluate [("name", PropEntry.attr "name")] ⟨[], [⟨"tel", "123"⟩]⟩
        (.cond "name" "~" (.str "bob")) =
      .error (.value "Unrecognized contact field type A") ∧
    evaluate [("name", PropEntry.attr "name")] ⟨[], []⟩ (.isSet "name" "!=") =
      .error (.value "Unrecognized contact field type A") :=
  ⟨rfl, rfl⟩

/-- C2 amended: for every `Condition` or `IsSetCondition` whose property
resolves to a searchable attribute, the in-memory evaluator does not apply
the attribute comparator semantics of the other two backends but raises
`ValueError` (`Unrecognized contact field type`). -/
theorem C2_attribute_evaluate_raises (pm : PropMap) (cj : ContactJson)
    (prop comparator a : String) (v : QueryValue)
    (hp : List.lookup prop pm = some (.attr a)) :
    evaluate pm cj (.cond prop comparator v) =
      .error (.value "Unrecognized contact field type A") ∧
    (∀ polarity, isSetPolarity comparator = .ok polarity →
      evaluate pm cj (.isSet prop comparator) =
        .error (.value "Unrecognized contact field type A")) := by
  constructor
  · show condEvaluate pm cj prop comparator v = _
    simp [condEvaluate, hp]
  · intro polarity hpol
    show isSetEvaluate pm cj prop comparator = _
    simp [isSetEvaluate, hp, hpol]

/-- Witness for `C2_attribute_evaluate_raises` at the anonymized-org
attribute `id`. -/
theorem C2_attribute_evaluate_raises_witness :
    evaluate [("id", PropEntry.attr "id")] ⟨[], []⟩ (.cond "id" "=" (.str "7")) =
      .error (.value "Unrecognized contact field type A") :=
  (C2_attribute_evaluate_raises [("id", PropEntry.attr "id")] ⟨[], []⟩
    "id" "=" "id" (.str "7") rfl).1

/-- C9 counterexample: the cleaning regex class contains `+`, so the phone
heuristic strips the leading plus — the claimed cleaned text
`"+15551234567"` is not produced. -/
theorem C9_phone_heuristic_counterexample :
    is_phonenumber "+1 (555) 123-4567" ≠ (true, some "+15551234567") := by
  decide

/-- C9 amended: punctuation-and-digit input is detected as a phone number;
the text `"+1 (555) 123-4567"` is cleaned to `"15551234567"` (all of
`+ space - ( )` are removed) before tokenizing, and parses as a substring
(`~`) condition on the `tel` scheme rather than being split on the
punctuation. -/
theorem C9_phone_heuristic (text : String) (hne : text.data ≠ [])
    (htel : ∀ ch ∈ text.data, isTelChar ch = true) :
    (is_phonenumber text).1 = true ∧
    is_phonenumber "+1 (555) 123-4567" = (true, some "15551234567") ∧
    parse_implicit_query "+1 (555) 123-4567" false =
      some (.cond "tel" "~" (.str "15551234567")) := by
  refine ⟨?_, by decide, rfl⟩
  have hm : tel_value_match text = true := by
    obtain ⟨a, l, hd⟩ := List.exists_cons_of_ne_nil hne
    simp only [tel_value_match, hd, List.isEmpty_cons, Bool.not_false, Bool.true_and,
      List.all_eq_true]
    intro ch hch
    exact htel ch (by rw [hd]; exact hch)
  simp [is_phonenumber, hm]

/-- Witness for `C9_phone_heuristic` at the concrete claim input. -/
theorem C9_phone_heuristic_witness :
    (is_phonenumber "+1 (555) 123-4567").1 = true :=
  (C9_phone_heuristic "+1 (555) 123-4567" (by decide) (by decide)).1

/-- C3: for a datetime field whose organization timezone is UTC, comparisons
use half-open local-day ranges: `created_on > "2020-01-15"` matches a
contact instant exactly at `2020-01-16T00:00:00Z` and does not match
`2020-01-15T23:59:59Z`, and `created_on = "2020-01-15"` matches exactly the
instants in `[2020-01-15T00:00:00Z, 2020-01-16T00:00:00Z)` — in both the
in-memory evaluator and the relational compilation. -/
theorem C3_datetime_range_semantics (f : ContactField) (pm : PropMap) (org : Org)
    (hoff : f.org.utcOffset = 0) (hvt : f.valueType = .datetime)
    (hp : List.lookup "created_on" pm = some (.field f)) :
    evaluate pm ⟨[(f.uuid, ⟨none, none, some (utcInstant 2020 1 16 0 0 0),
        none, none, none⟩)], []⟩
      (.cond "created_on" ">" (.str "2020-01-15")) = .ok true ∧
    evaluate pm ⟨[(f.uuid, ⟨none, none, some (utcInstant 2020 1 15 23 59 59),
        none, none, none⟩)], []⟩
      (.cond "created_on" ">" (.str "2020-01-15")) = .ok false ∧
    (∀ t : Int,
      evaluate pm ⟨[(f.uuid, ⟨none, none, some t, none, none, none⟩)], []⟩
        (.cond "created_on" "=" (.str "2020-01-15")) =
      .ok (decide (utcInstant 2020 1 15 0 0 0 ≤ t) &&
        decide (t < utcInstant 2020 1 16 0 0 0))) ∧
    condAsQuery org pm "created_on" ">" (.str "2020-01-15") =
      .ok (.idInValues (.params
        (.datetimeRange f.id (some (utcInstant 2020 1 16 0 0 0)) none))) ∧
    condAsQuery org pm "created_on" "=" (.str "2020-01-15") =
      .ok (.idInValues (.params (.datetimeRange f.id
        (some (utcInstant 2020 1 15 0 0 0)) (some (utcInstant 2020 1 16 0 0 0))))) ∧
    (∀ (db : DB) (r : ValueRow) (t : Int),
      r.contactFieldId = f.id → r.datetimeValue = some t →
      matchesValueParams db
          (.datetimeRange f.id (some (utcInstant 2020 1 16 0 0 0)) none) r =
        decide (utcInstant 2020 1 16 0 0 0 ≤ t) ∧
      matchesValueParams db (.datetimeRange f.id
          (some (utcInstant 2020 1 15 0 0 0)) (some (utcInstant 2020 1 16 0 0 0))) r =
        (decide (utcInstant 2020 1 15 0 0 0 ≤ t) &&
          decide (t < utcInstant 2020 1 16 0 0 0))) := by
  have hpd : parseQueryDate (QueryValue.str "2020-01-15") f.org = .ok 18276 := rfl
  have hrange : date_to_utc_range 18276 f.org =
      (utcInstant 2020 1 15 0 0 0, utcInstant 2020 1 16 0 0 0) := by
    simp only [date_to_utc_range, hoff]
    decide
  have hl : ∀ fv : FieldValue, List.lookup f.uuid [(f.uuid, fv)] = some fv := by
    intro fv
    simp [List.lookup]
  have hcond : ∀ (comparator : String) (t : Int),
      condEvaluate pm ⟨[(f.uuid, ⟨none, none, some t, none, none, none⟩)], []⟩
          "created_on" comparator (.str "2020-01-15") =
        (if comparator == "=" then
          .ok (decide (utcInstant 2020 1 15 0 0 0 ≤ t) &&
            decide (t < utcInstant 2020 1 16 0 0 0))
         else if comparator == ">" then .ok (decide (utcInstant 2020 1 16 0 0 0 ≤ t))
         else if comparator == ">=" then .ok (decide (utcInstant 2020 1 15 0 0 0 ≤ t))
         else if comparator == "<" then .ok (decide (t < utcInstant 2020 1 15 0 0 0))
         else if comparator == "<=" then .ok (decide (t < utcInstant 2020 1 16 0 0 0))
         else .error (.value ("Unknown datetime comparator: " ++ comparator))) := by
    intro comparator t
    simp only [condEvaluate, hp, hl, hvt, hpd, hrange]
  refine ⟨?_, ?_, ?_, ?_, ?_, ?_⟩
  · rw [show ∀ cj, evaluate pm cj (.cond "created_on" ">" (.str "2020-01-15")) =
        condEvaluate pm cj "created_on" ">" (.str "2020-01-15") from fun _ => rfl, hcond]
    have hd : decide (utcInstant 2020 1 16 0 0 0 ≤ utcInstant 2020 1 16 0 0 0) = true := by
      decide
    simp [hd]
  · rw [show ∀ cj, evaluate pm cj (.cond "created_on" ">" (.str "2020-01-15")) =
        condEvaluate pm cj "created_on" ">" (.str "2020-01-15") from fun _ => rfl, hcond]
    have hd : decide (utcInstant 2020 1 16 0 0 0 ≤ utcInstant 2020 1 15 23 59 59) = false := by
      decide
    simp [hd]
  · intro t
    rw [show ∀ cj, evaluate pm cj (.cond "created_on" "=" (.str "2020-01-15")) =
        condEvaluate pm cj "created_on" "=" (.str "2020-01-15") from fun _ => rfl, hcond]
    simp
  · simp only [condAsQuery, hp, build_value_query_params, hvt,
      _build_datetime_field_params, hpd, hrange]
    simp [DATETIME_LOOKUPS, List.lookup]
  · simp only [condAsQuery, hp, build_value_query_params, hvt,
      _build_datetime_field_params, hpd, hrange]
    simp [DATETIME_LOOKUPS, List.lookup]
  · intro db r t hcf hdt
    constructor
    · simp [matchesValueParams, hcf, hdt]
    · simp [matchesValueParams, hcf, hdt]

/-- Witness for `C3_datetime_range_semantics` at a concrete field, property
map and value row. -/
theorem C3_datetime_range_semantics_witness :
    evaluate [("created_on", PropEntry.field ⟨7, "u7", .datetime, ⟨false, 0, false⟩⟩)]
        ⟨[("u7", ⟨none, none, some (utcInstant 2020 1 16 0 0 0), none, none, none⟩)], []⟩
        (.cond "created_on" ">" (.str "2020-01-15")) = .ok true ∧
    matchesValueParams ⟨[], [], []⟩
        (.datetimeRange 7 (some (utcInstant 2020 1 16 0 0 0)) none)
        ⟨1, 7, none, none, some (utcInstant 2020 1 16 0 0 0), none⟩ =
      decide (utcInstant 2020 1 16 0 0 0 ≤ utcInstant 2020 1 16 0 0 0) :=
  ⟨(C3_datetime_range_semantics ⟨7, "u7", .datetime, ⟨false, 0, false⟩⟩
      [("created_on", PropEntry.field ⟨7, "u7", .datetime, ⟨false, 0, false⟩⟩)]
      ⟨false, 0, false⟩ rfl rfl rfl).1,
   ((C3_datetime_range_semantics ⟨7, "u7", .datetime, ⟨false, 0, false⟩⟩
      [("created_on", PropEntry.field ⟨7, "u7", .datetime, ⟨false, 0, false⟩⟩)]
      ⟨false, 0, false⟩ rfl rfl rfl).2.2.2.2.2 ⟨[], [], []⟩
      ⟨1, 7, none, none, some (utcInstant 2020 1 16 0 0 0), none⟩
      (utcInstant 2020 1 16 0 0 0) rfl rfl).1⟩

/-- C4: parsing a condition with an empty-string literal yields an
`IsSetCondition` (with the property and comparator tokens lower-cased and
aliased); comparator `!=` means the property is set and `is`/`=` mean it is
not set (shown on the URN-scheme evaluator and on a missing field); any
other comparator on an empty-string value is rejected with
`SearchException("Invalid operator for empty string comparison")` by all
three backends once the property resolves. -/
theorem C4_empty_literal_is_set :
    (∀ p c, visitCondition p c "" =
      .isSet (Str.lower p) (aliasComparator (Str.lower c))) ∧
    (∀ p c v, v ≠ "" → visitCondition p c v =
      .cond (Str.lower p) (aliasComparator (Str.lower c)) (.str v)) ∧
    isSetPolarity "!=" = .ok true ∧
    isSetPolarity "=" = .ok false ∧
    isSetPolarity "is" = .ok false ∧
    aliasComparator "is" = "=" ∧
    isSetPolarity ">" = .error (.search "Invalid operator for empty string comparison") ∧
    (∀ (pm : PropMap) (cj : ContactJson) (prop sch : String),
      List.lookup prop pm = some (.scheme sch) →
      evaluate pm cj (.isSet prop "!=") = .ok (cj.urns.any (fun u => u.scheme == sch)) ∧
      evaluate pm cj (.isSet prop "=") = .ok (!cj.urns.any (fun u => u.scheme == sch))) ∧
    (∀ (pm : PropMap) (cj : ContactJson) (prop : String) (f : ContactField),
      List.lookup prop pm = some (.field f) →
      List.lookup f.uuid cj.fields = none →
      evaluate pm cj (.isSet prop "!=") = .ok false ∧
      evaluate pm cj (.isSet prop "=") = .ok true) ∧
    (∀ (pm : PropMap) (cj : ContactJson) (org : Org) (prop comparator : String)
        (e : EvalErr) (entry : PropEntry),
      isSetPolarity comparator = .error e →
      List.lookup prop pm = some entry →
      evaluate pm cj (.isSet prop comparator) = .error e ∧
      isSetAsQuery org pm prop comparator = .error e ∧
      isSetAsES org pm prop comparator = .error e) := by
  refine ⟨fun p c => rfl, ?_, rfl, rfl, rfl, rfl, rfl, ?_, ?_, ?_⟩
  · intro p c v hv
    simp [visitCondition, hv]
  · intro pm cj prop sch hp
    constructor
    · show isSetEvaluate pm cj prop "!=" = _
      cases hany : cj.urns.any (fun u => u.scheme == sch) <;>
        simp [isSetEvaluate, hp, isSetPolarity, IS_SET_LOOKUPS, IS_NOT_SET_LOOKUPS,
          Str.lower, hany]
    · show isSetEvaluate pm cj prop "=" = _
      cases hany : cj.urns.any (fun u => u.scheme == sch) <;>
        simp [isSetEvaluate, hp, isSetPolarity, IS_SET_LOOKUPS, IS_NOT_SET_LOOKUPS,
          Str.lower, hany]
  · intro pm cj prop f hp hf
    constructor
    · show isSetEvaluate pm cj prop "!=" = _
      simp [isSetEvaluate, hp, hf, isSetPolarity, IS_SET_LOOKUPS, IS_NOT_SET_LOOKUPS,
        Str.lower]
    · show isSetEvaluate pm cj prop "=" = _
      simp [isSetEvaluate, hp, hf, isSetPolarity, IS_SET_LOOKUPS, IS_NOT_SET_LOOKUPS,
        Str.lower]
  · intro pm cj org prop comparator e entry hpol hp
    refine ⟨?_, ?_, ?_⟩
    · show isSetEvaluate pm cj prop comparator = _
      simp [isSetEvaluate, hp, hpol]
    · simp [isSetAsQuery, hp, hpol]
    · simp [isSetAsES, hp, hpol]

/-- Witness for `C4_empty_literal_is_set` at concrete parsing and backend
inputs. -/
theorem C4_empty_literal_is_set_witness :
    visitCondition "Age" ">" "" = .isSet "age" ">" ∧
    evaluate [("tel", PropEntry.scheme "tel")] ⟨[], [⟨"tel", "123"⟩]⟩
        (.isSet "tel" "!=") = .ok true ∧
    evaluate [("age", PropEntry.field ⟨3, "u3", .number, ⟨false, 0, false⟩⟩)] ⟨[], []⟩
        (.isSet "age" ">") =
      .error (.search "Invalid operator for empty string comparison") := by
  refine ⟨C4_empty_literal_is_set.1 "Age" ">", ?_, ?_⟩
  · have h := (C4_empty_literal_is_set.2.2.2.2.2.2.2.1
      [("tel", PropEntry.scheme "tel")] ⟨[], [⟨"tel", "123"⟩]⟩ "tel" "tel" rfl).1
    simpa using h
  · exact (C4_empty_literal_is_set.2.2.2.2.2.2.2.2.2
      [("age", PropEntry.field ⟨3, "u3", .number, ⟨false, 0, false⟩⟩)] ⟨[], []⟩
      ⟨false, 0, false⟩ "age" ">"
      (.search "Invalid operator for empty string comparison")
      (PropEntry.field ⟨3, "u3", .number, ⟨false, 0, false⟩⟩) rfl rfl).1

theorem condCompValList_map (p : String) (vals : List String) :
    condCompValList (vals.map (fun v => QueryNode.cond p "=" (QueryValue.str v))) =
      some (vals.map (fun v => ("=", QueryValue.str v))) := by
  induction vals with
  | nil => rfl
  | cons v vals ih => simp [condCompValList, condCompVal, ih]

theorem strValues_map (vals : List String) :
    strValues (vals.map (fun v => ("=", QueryValue.str v))) = some vals := by
  induction vals with
  | nil => rfl
  | cons v vals ih => simp [strValues, ih]

theorem allEq_map (vals : List String) :
    ((vals.map (fun v => ("=", QueryValue.str v))).all (fun pr => pr.1 == "=")) = true := by
  simp [List.all_eq_true]

theorem parseQueryDateList_length (o : Org) :
    ∀ (vals : List String) (ds : List Int),
      parseQueryDateList o vals = .ok ds → ds.length = vals.length := by
  intro vals
  induction vals with
  | nil =>
      intro ds h
      simp only [parseQueryDateList] at h
      injection h with h
      subst h
      rfl
  | cons v vals ih =>
      intro ds h
      simp only [parseQueryDateList] at h
      cases hv : parseQueryDate (.str v) o with
      | error e => rw [hv] at h; cases h
      | ok d =>
          rw [hv] at h
          cases hrest : parseQueryDateList o vals with
          | error e => rw [hrest] at h; cases h
          | ok ds0 =>
              rw [hrest] at h
              injection h with h
              subst h
              simp [ih ds0 hrest]

theorem buildParamsList_datetime (f : ContactField) (hvt : f.valueType = .datetime) :
    ∀ (vals : List String) (ds : List Int),
      parseQueryDateList f.org vals = .ok ds →
      buildParamsList f (vals.map (fun v => ("=", QueryValue.str v))) =
        .ok (ds.map (fun d => ValueParams.datetimeRange f.id
          (some (date_to_utc_range d f.org).1) (some (date_to_utc_range d f.org).2))) := by
  intro vals
  induction vals with
  | nil =>
      intro ds h
      simp only [parseQueryDateList] at h
      injection h with h
      subst h
      rfl
  | cons v vals ih =>
      intro ds h
      simp only [parseQueryDateList] at h
      cases hv : parseQueryDate (.str v) f.org with
      | error e => rw [hv] at h; cases h
      | ok d =>
          rw [hv] at h
          cases hrest : parseQueryDateList f.org vals with
          | error e => rw [hrest] at h; cases h
          | ok ds0 =>
              rw [hrest] at h
              injection h with h
              subst h
              simp only [List.map_cons, buildParamsList, build_value_query_params, hvt,
                _build_datetime_field_params, hv, ih ds0 hrest]
              simp [DATETIME_LOOKUPS, List.lookup]

theorem paramsCount_vqApply (op : BoolOp) (a b : ValueQ) :
    (vqApply op a b).paramsCount = a.paramsCount + b.paramsCount := by
  cases op <;> rfl

theorem paramsCount_foldl (op : BoolOp) (qs : List ValueQ) :
    ∀ q : ValueQ, (qs.foldl (vqApply op) q).paramsCount =
      q.paramsCount + (qs.map ValueQ.paramsCount).sum := by
  induction qs with
  | nil => intro q; simp
  | cons x qs ih =>
      intro q
      simp only [List.foldl_cons, ih, List.map_cons, List.sum_cons, paramsCount_vqApply]
      omega

theorem allDT_vqApply (op : BoolOp) (a b : ValueQ)
    (ha : a.allDatetimeRanges = true) (hb : b.allDatetimeRanges = true) :
    (vqApply op a b).allDatetimeRanges = true := by
  cases op <;> simp [vqApply, ValueQ.allDatetimeRanges, ha, hb]

theorem allDT_foldl (op : BoolOp) (qs : List ValueQ) :
    ∀ q : ValueQ, q.allDatetimeRanges = true →
      (∀ x ∈ qs, x.allDatetimeRanges = true) →
      (qs.foldl (vqApply op) q).allDatetimeRanges = true := by
  induction qs with
  | nil => intro q hq _; exact hq
  | cons x qs ih =>
      intro q hq hall
      simp only [List.foldl_cons]
      exact ih _ (allDT_vqApply op q x hq (hall x (List.mem_cons_self _ _)))
        (fun y hy => hall y (List.mem_cons_of_mem _ hy))

theorem sum_map_one {α} (l : List α) : (l.map (fun _ => (1 : Nat))).sum = l.length := by
  induction l with
  | nil => rfl
  | cons a l ih =>
      simp [ih]
      omega

/-- C8: a `SinglePropCombination` with operator OR whose children are all
`=` conditions on a non-datetime field compiles relationally to one
multi-value membership test over the children values (`value IN (v1..vn)`)
— shown per field type — while on a datetime field the same combination is
not folded: it compiles to one `Value` sub-query combining `n` separate
datetime range tests, none of which is a membership list. -/
theorem C8_membership_folding (org : Org) (pm : PropMap) (p : String)
    (f : ContactField) (vals : List String)
    (hp : List.lookup p pm = some (.field f)) (hne : vals ≠ []) :
    (f.valueType = .text →
      as_query org pm (.singleProp p .or (vals.map (fun v => .cond p "=" (.str v)))) =
        .ok (.idInValues (.params (.fieldAndStringValueIn (vals.map (index_key f)))))) ∧
    ((f.valueType = .state ∨ f.valueType = .district ∨ f.valueType = .ward) →
      as_query org pm (.singleProp p .or (vals.map (fun v => .cond p "=" (.str v)))) =
        .ok (.idInValues (.params (.locationValueIn f.id
          (BOUNDARY_LEVELS_BY_VALUE_TYPE f.valueType) "iexact" vals)))) ∧
    (f.valueType = .number →
      ∀ ns : List Dec, parse_number_list vals = .ok ns →
      as_query org pm (.singleProp p .or (vals.map (fun v => .cond p "=" (.str v)))) =
        .ok (.idInValues (.params (.decimalValueIn f.id ns)))) ∧
    (f.valueType = .datetime →
      ∀ ds : List Int, parseQueryDateList f.org vals = .ok ds →
      ∃ vq : ValueQ,
        as_query org pm (.singleProp p .or (vals.map (fun v => .cond p "=" (.str v)))) =
          .ok (.idInValues vq) ∧
        vq.paramsCount = vals.length ∧ vq.allDatetimeRanges = true) := by
  have hstart : as_query org pm
      (.singleProp p .or (vals.map (fun v => QueryNode.cond p "=" (QueryValue.str v)))) =
      spcFieldAsQuery org pm p .or
        (vals.map (fun v => QueryNode.cond p "=" (QueryValue.str v))) f := by
    simp only [as_query, hp]
  refine ⟨?_, ?_, ?_, ?_⟩
  · intro hvt
    rw [hstart]
    simp [spcFieldAsQuery, condCompValList_map, allEq_map, strValues_map, hvt,
      condAsQuery, hp, build_value_query_params, _build_text_field_params]
  · intro hvt
    rw [hstart]
    rcases hvt with hvt | hvt | hvt <;>
      simp [spcFieldAsQuery, condCompValList_map, allEq_map, strValues_map, hvt,
        condAsQuery, hp, build_value_query_params, _build_location_field_params,
        LOCATION_LOOKUPS, List.lookup, BOUNDARY_LEVELS_BY_VALUE_TYPE]
  · intro hvt ns hns
    rw [hstart]
    simp [spcFieldAsQuery, condCompValList_map, allEq_map, strValues_map, hvt,
      condAsQuery, hp, build_value_query_params, _build_number_field_params, hns]
  · intro hvt ds hds
    have hdlen : ds.length = vals.length := parseQueryDateList_length f.org vals ds hds
    have hdne : ds ≠ [] := by
      intro h0
      apply hne
      subst h0
      simpa using List.eq_nil_of_length_eq_zero hdlen.symm
    obtain ⟨d, ds0, rfl⟩ := List.exists_cons_of_ne_nil hdne
    have hbuild := buildParamsList_datetime f hvt vals (d :: ds0) hds
    refine ⟨((ds0.map (fun d2 => ValueParams.datetimeRange f.id
        (some (date_to_utc_range d2 f.org).1)
        (some (date_to_utc_range d2 f.org).2))).map ValueQ.params).foldl (vqApply .or)
      (ValueQ.params (.datetimeRange f.id (some (date_to_utc_range d f.org).1)
        (some (date_to_utc_range d f.org).2))), ?_, ?_, ?_⟩
    · rw [hstart]
      simp [spcFieldAsQuery, condCompValList_map, allEq_map, hvt, hbuild]
    · rw [paramsCount_foldl]
      have hmap : ((ds0.map (fun d2 => ValueParams.datetimeRange f.id
          (some (date_to_utc_range d2 f.org).1)
          (some (date_to_utc_range d2 f.org).2))).map ValueQ.params).map
            ValueQ.paramsCount =
          ds0.map (fun _ => (1 : Nat)) := by
        rw [List.map_map, List.map_map]
        exact List.map_congr_left (fun d2 hd2 => rfl)
      rw [hmap, sum_map_one]
      have : ds0.length + 1 = vals.length := by simpa using hdlen
      simp [ValueQ.paramsCount]
      omega
    · apply allDT_foldl
      · rfl
      · intro x hx
        rcases List.mem_map.mp hx with ⟨pp, hpp, rfl⟩
        rcases List.mem_map.mp hpp with ⟨d2, hd2, rfl⟩
        rfl

/-- Witness for `C8_membership_folding` at the concrete state-field example
`SinglePropCombination(OR, [state="x", state="y"])` and a concrete datetime
field. -/
theorem C8_membership_folding_witness :
    as_query ⟨false, 0, false⟩ [("state", PropEntry.field ⟨3, "u3", .state, ⟨false, 0, false⟩⟩)]
        (.singleProp "state" .or [.cond "state" "=" (.str "x"), .cond "state" "=" (.str "y")]) =
      .ok (.idInValues (.params (.locationValueIn 3 1 "iexact" ["x", "y"]))) ∧
    (∃ vq : ValueQ,
      as_query ⟨false, 0, false⟩
          [("joined", PropEntry.field ⟨4, "u4", .datetime, ⟨false, 0, false⟩⟩)]
          (.singleProp "joined" .or [.cond "joined" "=" (.str "2020-01-15"),
            .cond "joined" "=" (.str "2020-01-16")]) =
        .ok (.idInValues vq) ∧
      vq.paramsCount = 2 ∧ vq.allDatetimeRanges = true) := by
  constructor
  · have h := (C8_membership_folding ⟨false, 0, false⟩
      [("state", PropEntry.field ⟨3, "u3", .state, ⟨false, 0, false⟩⟩)] "state"
      ⟨3, "u3", .state, ⟨false, 0, false⟩⟩ ["x", "y"] rfl (by simp)).2.1 (Or.inl rfl)
    simpa using h
  · have h := (C8_membership_folding ⟨false, 0, false⟩
      [("joined", PropEntry.field ⟨4, "u4", .datetime, ⟨false, 0, false⟩⟩)] "joined"
      ⟨4, "u4", .datetime, ⟨false, 0, false⟩⟩ ["2020-01-15", "2020-01-16"] rfl
      (by simp)).2.2.2 rfl [18276, 18277] rfl
    simpa using h
